import Mathlib

/-!
Verification development for the auto-dungeon-master resolution core.

The definitions below are a shallow embedding of the Python sources
`src/game/core/rules_engine.py`, `src/game/core/action_queue.py`,
`src/game/core/state_manager.py`, `src/game/core/resolution_engine.py` and
`src/game/core/game_controller.py`, over the data model of
`src/game/models/actions.py`.

Modelling conventions:

* Machine randomness (`random.randint`) is modelled by an explicit stream of
  naturals (`Rng`); each call consumes one stream element and maps it into the
  requested closed interval, so every concrete Python execution trace
  corresponds to some stream, and properties proved for all streams hold for
  all traces.
* Python exceptions are modelled with `Except String`; a raised exception is
  an `.error` value carrying the message.
* Stateful code becomes explicit state passing.  In-place mutation of an
  aliased object found inside `GameState` is modelled by locating the object
  (`findLoc`), mutating the located value and writing it back at the same
  location.
* The core modules reference several declarations whose definitions are not
  present under the sources (the repository holds two generations of its data
  model: the oracle layer and `models/actions.py` agree with each other, while
  the core modules and the scenario builder `scenarios/test_encounter.py` were
  written against a richer shape that is not included).  Each such item is
  modelled from the specification and carries a doc comment starting with
  `Modelled from the spec:`.
* Python dynamic values reached by `StateManager._mutate_target` (dicts,
  dataclass objects, lists, ints, strings, None) are modelled by the inductive
  type `PyVal`.  Floats do not occur in the game data and are omitted.
-/

namespace AutoDungeon

/-- Dynamic Python value as manipulated by `StateManager._mutate_target`:
an integer, a string, a list, a dict (string keys), a structured object
(attribute access), or `None`. -/
inductive PyVal where
  | int (n : Int)
  | str (s : String)
  | list (xs : List PyVal)
  | dict (entries : List (String × PyVal))
  | obj (fields : List (String × PyVal))
  | none

mutual

/-- Structural equality on dynamic values: the model of Python `==` as used by
the `remove` operation's membership test. -/
def pyBeq : PyVal → PyVal → Bool
  | .int a, .int b => a == b
  | .str a, .str b => a == b
  | .none, .none => true
  | .list a, .list b => pyBeqList a b
  | .dict a, .dict b => pyBeqFields a b
  | .obj a, .obj b => pyBeqFields a b
  | _, _ => false

/-- Elementwise equality of value lists. -/
def pyBeqList : List PyVal → List PyVal → Bool
  | [], [] => true
  | x :: xs, y :: ys => pyBeq x y && pyBeqList xs ys
  | _, _ => false

/-- Elementwise equality of keyed field lists. -/
def pyBeqFields : List (String × PyVal) → List (String × PyVal) → Bool
  | [], [] => true
  | (k1, v1) :: xs, (k2, v2) :: ys => k1 == k2 && pyBeq v1 v2 && pyBeqFields xs ys
  | _, _ => false

end

/-- Embedding of `StateChange` from `models/actions.py`: a discrete change to game state.
The Python field `attribute` (the dot-separated path) is called `attr` here
because `attribute` is a Lean keyword. -/
structure StateChange where
  target_id : String
  attr : String
  operation : String
  value : PyVal

/-- Embedding of `ActionType` from `models/actions.py`. -/
inductive ActionType where
  | ATTACK | CAST | SKILL | INTERACT | MOVE | SAY | OTHER
deriving DecidableEq

/-- Embedding of `RollType` from `models/actions.py` (members `ATTACK`, `DAMAGE`, `SAVE`,
`CHECK`).  The member `CONTEST` is Modelled from the spec: it is referenced by
`ResolutionEngine._evaluate_success` (resolution_engine.py line 71) and named
in the specification's overall-success policy, but it is absent from the
`RollType` enum in `models/actions.py`. -/
inductive RollType where
  | ATTACK | DAMAGE | SAVE | CHECK | CONTEST
deriving DecidableEq

/-- Embedding of `RollOutcome` from `models/actions.py`; the critical variants are
commented out in the source. -/
inductive RollOutcome where
  | SUCCESS | FAILURE
deriving DecidableEq

/-- Embedding of `RollOutcomes` from `models/actions.py`: state changes keyed by outcome. -/
structure RollOutcomes where
  SUCCESS : List StateChange
  FAILURE : List StateChange

/-- Embedding of `RollSpec` from `models/actions.py`.  The field `context` is Modelled from
the spec: `RulesEngine.execute_roll` reads `spec.context` and passes it to
`roll_dice` as the attribute-modifier mapping, but `models/actions.py` does
not declare the field. -/
structure RollSpec where
  made_by : String
  roll_type : RollType
  dice : String
  threshold : Int
  advantage : Bool
  disadvantage : Bool
  outcomes : RollOutcomes
  explanation : String
  context : Option (List (String × Int))

/-- Embedding of `RollResult` from `models/actions.py`. -/
structure RollResult where
  spec : RollSpec
  result : Int
  outcome : RollOutcome
  state_changes : List StateChange

/-- Modelled from the spec: the engine reads `result.success` and
`result.total`, which `models/actions.py` does not define.  Per the spec a
roll succeeds exactly when its outcome is `SUCCESS` (meets-or-beats was
already decided by `execute_roll`). -/
def RollResult.success (r : RollResult) : Bool := r.outcome == RollOutcome.SUCCESS

/-- Modelled from the spec: `result.total` as used by narration is the final
numeric total, i.e. the `result` field. -/
def RollResult.total (r : RollResult) : Int := r.result

/-- The stream of underlying random values: the model of Python's global
`random` generator.  An exhausted stream yields zeros. -/
abbrev Rng := List Nat

/-- Pop one raw value off the stream. -/
def randNat : Rng → Nat × Rng
  | [] => (0, [])
  | x :: xs => (x, xs)

/-- Model of `random.randint(lo, hi)`: a uniform integer in `[lo, hi]`;
raises `ValueError` on an empty range.  The stream value is mapped into the
interval, so for every value in the interval some stream produces it. -/
def randint (lo hi : Int) (g : Rng) : Except String (Int × Rng) :=
  if hi < lo then .error "ValueError: empty range in randint"
  else
    let (x, g1) := randNat g
    .ok (lo + (x : Int) % (hi - lo + 1), g1)

/-- Python `str.strip()` on a character list (ASCII whitespace). -/
def pyStrip (cs : List Char) : List Char :=
  ((cs.dropWhile Char.isWhitespace).reverse.dropWhile Char.isWhitespace).reverse

/-- A regex `\w` word character (ASCII reading). -/
def isWordChar (c : Char) : Bool := c.isAlphanum || c == '_'

/-- Numeric value of a digit string. -/
def digitsToNat (cs : List Char) : Nat :=
  cs.foldl (fun a c => a * 10 + (c.toNat - 48)) 0

/-- The dice-formula grammar of `RulesEngine.roll_dice`: full match of
`(\d+)d(\d+)([+-]\w+)?` against the stripped formula.  Returns the number of
dice, the die sides, and the optional sign and modifier text. -/
def parseFormula (formula : String) : Option (Nat × Nat × Option (Char × List Char)) :=
  let cs := pyStrip formula.data
  let (d1, rest1) := cs.span Char.isDigit
  if d1.isEmpty then Option.none else
  match rest1 with
  | [] => Option.none
  | c :: rest2 =>
    if c ≠ 'd' then Option.none else
    let (d2, rest3) := rest2.span Char.isDigit
    if d2.isEmpty then Option.none else
    match rest3 with
    | [] => some (digitsToNat d1, digitsToNat d2, Option.none)
    | m :: rest4 =>
      if (m == '+' || m == '-') && !rest4.isEmpty && rest4.all isWordChar
      then some (digitsToNat d1, digitsToNat d2, some (m, rest4))
      else Option.none

/-- The dice-rolling loop of `roll_dice`: `num_dice` independent
`randint(1, die_sides)` draws, summed. -/
def rollSum : Nat → Nat → Rng → Except String (Int × Rng)
  | 0, _, g => .ok (0, g)
  | n + 1, s, g =>
    match randint 1 (s : Int) g with
    | .error e => .error e
    | .ok (x, g1) =>
      match rollSum n s g1 with
      | .error e => .error e
      | .ok (t, g2) => .ok (x + t, g2)

/-- Embedding of `RulesEngine.calculate_modifier`: standard modifier `(value - 10) // 2`
(Python floor division). -/
def calculate_modifier (attribute_value : Int) : Int :=
  (attribute_value - 10).fdiv 2

/-- Embedding of `RulesEngine.roll_dice` (rules_engine.py lines 23-72): parse the formula,
roll the dice, then apply the modifier.  A literal modifier is added directly;
an attribute modifier requires a context (error if `None`), is upper-cased,
and falls back to 0 when the key is missing from the supplied context. -/
def roll_dice (formula : String) (context : Option (List (String × Int)))
    (g : Rng) : Except String (Int × Rng) :=
  match parseFormula formula with
  | Option.none => .error ("Invalid dice formula format: " ++ formula)
  | some (num_dice, die_sides, modifier_str) =>
    match rollSum num_dice die_sides g with
    | .error e => .error e
    | .ok (total, g1) =>
      match modifier_str with
      | Option.none => .ok (total, g1)
      | some (signChar, value_part) =>
        let sign : Int := if signChar == '+' then 1 else -1
        if value_part.all Char.isDigit then
          .ok (total + sign * (digitsToNat value_part : Int), g1)
        else
          match context with
          | Option.none =>
            .error "Formula requires context for attribute but none provided."
          | some ctx =>
            let key : String := ⟨value_part.map Char.toUpper⟩
            let mod_value : Int :=
              match ctx.lookup key with
              | Option.none => 0
              | some v => v
            .ok (total + sign * mod_value, g1)

/-- Embedding of `RulesEngine.roll_with_advantage`: roll twice, take the higher result. -/
def roll_with_advantage (formula : String) (context : Option (List (String × Int)))
    (g : Rng) : Except String (Int × Rng) :=
  match roll_dice formula context g with
  | .error e => .error e
  | .ok (r1, g1) =>
    match roll_dice formula context g1 with
    | .error e => .error e
    | .ok (r2, g2) => .ok (max r1 r2, g2)

/-- Embedding of `RulesEngine.roll_with_disadvantage`: roll twice, take the lower result. -/
def roll_with_disadvantage (formula : String) (context : Option (List (String × Int)))
    (g : Rng) : Except String (Int × Rng) :=
  match roll_dice formula context g with
  | .error e => .error e
  | .ok (r1, g1) =>
    match roll_dice formula context g1 with
    | .error e => .error e
    | .ok (r2, g2) => .ok (min r1 r2, g2)

/-- Embedding of `RulesEngine.execute_roll` (rules_engine.py lines 86-121): resolve the
advantage/disadvantage cancellation policy, compute the total, compare it to
the threshold with meets-or-beats semantics and select the matching outcome's
state changes. -/
def execute_roll (spec : RollSpec) (g : Rng) : Except String (RollResult × Rng) :=
  let has_adv := spec.advantage && !spec.disadvantage
  let has_dis := spec.disadvantage && !spec.advantage
  let rolled :=
    if has_adv then roll_with_advantage spec.dice spec.context g
    else if has_dis then roll_with_disadvantage spec.dice spec.context g
    else roll_dice spec.dice spec.context g
  match rolled with
  | .error e => .error e
  | .ok (total, g1) =>
    if spec.threshold ≤ total then
      .ok ({ spec := spec, result := total, outcome := .SUCCESS,
             state_changes := spec.outcomes.SUCCESS }, g1)
    else
      .ok ({ spec := spec, result := total, outcome := .FAILURE,
             state_changes := spec.outcomes.FAILURE }, g1)

/-- C6: for every formula and context, `roll_with_advantage` returns a value
greater than or equal to each of its two independent component rolls and
`roll_with_disadvantage` returns a value less than or equal to each of its two
component rolls; and when a `RollSpec` has both `advantage` and `disadvantage`
set, `execute_roll` performs a single normal roll (its result, outcome, state
changes and final generator state coincide with those of the spec with both
flags cleared, which takes the plain `roll_dice` branch). -/
theorem C6_advantage_disadvantage_cancellation :
    (∀ (f : String) ctx g v g2, roll_with_advantage f ctx g = .ok (v, g2) →
      ∃ r1 g1 r2, roll_dice f ctx g = .ok (r1, g1) ∧ roll_dice f ctx g1 = .ok (r2, g2) ∧
        v = max r1 r2 ∧ r1 ≤ v ∧ r2 ≤ v) ∧
    (∀ (f : String) ctx g v g2, roll_with_disadvantage f ctx g = .ok (v, g2) →
      ∃ r1 g1 r2, roll_dice f ctx g = .ok (r1, g1) ∧ roll_dice f ctx g1 = .ok (r2, g2) ∧
        v = min r1 r2 ∧ v ≤ r1 ∧ v ≤ r2) ∧
    (∀ (spec : RollSpec) g, spec.advantage = true → spec.disadvantage = true →
      (execute_roll spec g).map (fun p => (p.1.result, p.1.outcome, p.1.state_changes, p.2)) =
        (execute_roll { spec with advantage := false, disadvantage := false } g).map
          (fun p => (p.1.result, p.1.outcome, p.1.state_changes, p.2))) := by
  refine ⟨?_, ?_, ?_⟩
  · intro f ctx g v g2 h
    cases h1 : roll_dice f ctx g with
    | error e => simp [roll_with_advantage, h1] at h
    | ok p =>
      obtain ⟨r1, g1⟩ := p
      cases h2 : roll_dice f ctx g1 with
      | error e => simp [roll_with_advantage, h1, h2] at h
      | ok q =>
        obtain ⟨r2, g2x⟩ := q
        simp only [roll_with_advantage, h1, h2, Except.ok.injEq, Prod.mk.injEq] at h
        obtain ⟨hv, hg⟩ := h
        subst hv; subst hg
        exact ⟨r1, g1, r2, rfl, h2, rfl, le_max_left _ _, le_max_right _ _⟩
  · intro f ctx g v g2 h
    cases h1 : roll_dice f ctx g with
    | error e => simp [roll_with_disadvantage, h1] at h
    | ok p =>
      obtain ⟨r1, g1⟩ := p
      cases h2 : roll_dice f ctx g1 with
      | error e => simp [roll_with_disadvantage, h1, h2] at h
      | ok q =>
        obtain ⟨r2, g2x⟩ := q
        simp only [roll_with_disadvantage, h1, h2, Except.ok.injEq, Prod.mk.injEq] at h
        obtain ⟨hv, hg⟩ := h
        subst hv; subst hg
        exact ⟨r1, g1, r2, rfl, h2, rfl, min_le_left _ _, min_le_right _ _⟩
  · intro spec g h1 h2
    cases h3 : roll_dice spec.dice spec.context g with
    | error e => simp [execute_roll, h1, h2, h3]
    | ok p =>
      obtain ⟨t, g1⟩ := p
      by_cases ht : spec.threshold ≤ t <;>
        simp [execute_roll, h1, h2, h3, ht, Except.map]

/-- Closed instance for C6: at formula `1d1` on the empty stream both
component rolls are 1 and advantage/disadvantage return 1; a both-flags spec
rolls a single normal die. -/
theorem C6_advantage_disadvantage_cancellation_witness :
    (∃ r1 g1 r2, roll_dice "1d1" Option.none [] = .ok (r1, g1) ∧
      roll_dice "1d1" Option.none g1 = .ok (r2, []) ∧
      (1 : Int) = max r1 r2 ∧ r1 ≤ 1 ∧ r2 ≤ 1) ∧
    (∃ r1 g1 r2, roll_dice "1d1" Option.none [] = .ok (r1, g1) ∧
      roll_dice "1d1" Option.none g1 = .ok (r2, []) ∧
      (1 : Int) = min r1 r2 ∧ 1 ≤ r1 ∧ 1 ≤ r2) ∧
    ((execute_roll ⟨"p", .ATTACK, "1d1", 1, true, true, ⟨[], []⟩, "swing", Option.none⟩ []).map
        (fun p => (p.1.result, p.1.outcome, p.1.state_changes, p.2)) =
      (execute_roll ⟨"p", .ATTACK, "1d1", 1, false, false, ⟨[], []⟩, "swing", Option.none⟩ []).map
        (fun p => (p.1.result, p.1.outcome, p.1.state_changes, p.2))) :=
  ⟨C6_advantage_disadvantage_cancellation.1 "1d1" Option.none [] 1 [] (by rfl),
   C6_advantage_disadvantage_cancellation.2.1 "1d1" Option.none [] 1 [] (by rfl),
   C6_advantage_disadvantage_cancellation.2.2
     ⟨"p", .ATTACK, "1d1", 1, true, true, ⟨[], []⟩, "swing", Option.none⟩ [] rfl rfl⟩

/-- C10: when a well-formed formula's modifier part is an attribute name (not
all digits), `roll_dice` with no context at all raises an error (and, once the
dice themselves rolled fine, it is exactly the missing-context error), while a
supplied context that lacks the upper-cased attribute key degrades to modifier
0: the call returns exactly the bare dice sum. -/
theorem C10_attribute_modifier_requires_context :
    ∀ (f : String) n s m part g,
      parseFormula f = some (n, s, some (m, part)) →
      part.all Char.isDigit = false →
      (∃ e, roll_dice f Option.none g = .error e) ∧
      (∀ t g1, rollSum n s g = .ok (t, g1) →
        roll_dice f Option.none g =
          .error "Formula requires context for attribute but none provided.") ∧
      (∀ ctx, ctx.lookup (⟨part.map Char.toUpper⟩ : String) = Option.none →
        roll_dice f (some ctx) g = rollSum n s g) := by
  intro f n s m part g hp hd
  refine ⟨?_, ?_, ?_⟩
  · cases hr : rollSum n s g with
    | error e => exact ⟨e, by simp [roll_dice, hp, hr]⟩
    | ok p =>
      obtain ⟨t, g1⟩ := p
      exact ⟨"Formula requires context for attribute but none provided.",
        by simp [roll_dice, hp, hr, hd]⟩
  · intro t g1 hr
    simp [roll_dice, hp, hr, hd]
  · intro ctx hc
    cases hr : rollSum n s g with
    | error e => simp [roll_dice, hp, hr]
    | ok p =>
      obtain ⟨t, g1⟩ := p
      simp [roll_dice, hp, hr, hd, hc]

/-- Closed instance for C10: formula `1d20+STR`; with no context the call
errors, with an empty context (no `STR` key) it returns the bare `1d20` sum. -/
theorem C10_attribute_modifier_requires_context_witness :
    (∃ e, roll_dice "1d20+STR" Option.none [] = .error e) ∧
    (∀ t g1, rollSum 1 20 [] = .ok (t, g1) →
      roll_dice "1d20+STR" Option.none [] =
        .error "Formula requires context for attribute but none provided.") ∧
    (∀ ctx, ctx.lookup (⟨['S', 'T', 'R'].map Char.toUpper⟩ : String) = Option.none →
      roll_dice "1d20+STR" (some ctx) [] = rollSum 1 20 []) :=
  C10_attribute_modifier_requires_context "1d20+STR" 1 20 '+' ['S', 'T', 'R'] []
    (by decide) (by decide)

/-- Embedding of `Action` from `models/actions.py`: the unit of work in the queue.  The
`plan` and `resolution` fields (filled in mid-pipeline by the controller) are
threaded explicitly through the controller embedding instead of being stored
on the action, so the mutually recursive `Action`/`Resolution` knot of the
Python classes is not needed. -/
structure Action where
  id : String
  owner_id : String
  intent_text : String
  priority : Int
deriving DecidableEq

/-- One step of Python `sorted(keys, reverse=True)`: insert into a
descending-sorted list. -/
def insertDesc (x : Int) : List Int → List Int
  | [] => [x]
  | y :: ys => if y < x then x :: y :: ys else y :: insertDesc x ys

/-- Model of `sorted(keys, reverse=True)` from `ActionQueue.enqueue`. -/
def sortDesc (l : List Int) : List Int := l.foldr insertDesc []

/-- Embedding of `ActionQueue` from `action_queue.py`: `_queues` is the insertion-ordered
dict from priority to deque, `_priorities` the cached descending key list. -/
structure ActionQueue where
  queues : List (Int × List Action)
  priorities : List Int
deriving DecidableEq

/-- A fresh `ActionQueue()`. -/
def ActionQueue.empty : ActionQueue := ⟨[], []⟩

/-- The key set of `_queues`. -/
def keysOf (q : ActionQueue) : List Int := q.queues.map (·.1)

/-- Dict lookup on the priority table. -/
def lookupLevel (p : Int) : List (Int × List Action) → Option (List Action)
  | [] => Option.none
  | (k, v) :: es => if p = k then some v else lookupLevel p es

/-- The deque stored at priority `p` (`_queues[p]`, empty when absent). -/
def levelOf (q : ActionQueue) (p : Int) : List Action := (lookupLevel p q.queues).getD []

/-- First phase of `ActionQueue.enqueue` (action_queue.py lines 16-18): if the
priority level does not exist yet, create an empty deque for it and re-sort
`_priorities` descending. -/
def addLevel (q : ActionQueue) (p : Int) : ActionQueue :=
  if (keysOf q).contains p then q
  else ⟨q.queues ++ [(p, [])], sortDesc ((q.queues ++ [(p, [])]).map Prod.fst)⟩

/-- Embedding of `ActionQueue.enqueue` (action_queue.py lines 14-19): create the priority
level if new, then append the action at the back of its level's deque. -/
def ActionQueue.enqueue (q : ActionQueue) (action : Action) : ActionQueue :=
  let q1 := addLevel q action.priority
  ⟨q1.queues.map (fun e => if e.1 = action.priority then (e.1, e.2 ++ [action]) else e),
   q1.priorities⟩

/-- Embedding of `ActionQueue.enqueue_reaction` (action_queue.py lines 21-24): pin the
priority to the reaction tier 100, then enqueue. -/
def ActionQueue.enqueue_reaction (q : ActionQueue) (action : Action) : ActionQueue :=
  q.enqueue { action with priority := 100 }

/-- The scan of `ActionQueue.dequeue` over the cached priority list: pop the
front of the first non-empty deque. -/
def dequeueFrom (q : ActionQueue) : List Int → Option Action × ActionQueue
  | [] => (Option.none, q)
  | p :: ps =>
    match levelOf q p with
    | [] => dequeueFrom q ps
    | a :: _ =>
      (some a,
       ⟨q.queues.map (fun e => if e.1 = p then (e.1, e.2.drop 1) else e), q.priorities⟩)

/-- Embedding of `ActionQueue.dequeue` (action_queue.py lines 26-32). -/
def ActionQueue.dequeue (q : ActionQueue) : Option Action × ActionQueue :=
  dequeueFrom q q.priorities

/-- Embedding of `ActionQueue.is_empty` (action_queue.py lines 34-35). -/
def ActionQueue.is_empty (q : ActionQueue) : Bool :=
  q.queues.all (fun e => e.2.isEmpty)

/-- The representation invariant maintained by `ActionQueue`: `_priorities` is
exactly the descending sort of the dict's keys, and keys are unique (a dict
cannot hold duplicates). -/
def QueueWF (q : ActionQueue) : Prop :=
  q.priorities = sortDesc (keysOf q) ∧ (keysOf q).Nodup

theorem mem_insertDesc {x y : Int} {l : List Int} :
    y ∈ insertDesc x l ↔ y = x ∨ y ∈ l := by
  induction l with
  | nil => simp [insertDesc]
  | cons z zs ih =>
    by_cases h : z < x <;> (simp [insertDesc, h, ih]; try tauto)

theorem sorted_insertDesc {x : Int} {l : List Int}
    (h : l.Sorted (fun a b => b ≤ a)) :
    (insertDesc x l).Sorted (fun a b => b ≤ a) := by
  induction l with
  | nil => simp [insertDesc]
  | cons z zs ih =>
    rw [List.sorted_cons] at h
    by_cases hzx : z < x
    · rw [insertDesc, if_pos hzx, List.sorted_cons]
      refine ⟨?_, List.sorted_cons.mpr h⟩
      intro b hb
      rcases List.mem_cons.mp hb with rfl | hb
      · exact le_of_lt hzx
      · exact le_trans (h.1 b hb) (le_of_lt hzx)
    · rw [insertDesc, if_neg hzx, List.sorted_cons]
      refine ⟨?_, ih h.2⟩
      intro b hb
      rcases mem_insertDesc.mp hb with rfl | hb
      · exact le_of_not_lt hzx
      · exact h.1 b hb

theorem sorted_sortDesc (l : List Int) :
    (sortDesc l).Sorted (fun a b => b ≤ a) := by
  induction l with
  | nil => simp [sortDesc]
  | cons x xs ih => exact sorted_insertDesc ih

theorem mem_sortDesc {x : Int} {l : List Int} : x ∈ sortDesc l ↔ x ∈ l := by
  induction l with
  | nil => simp [sortDesc]
  | cons y ys ih =>
    show x ∈ insertDesc y (sortDesc ys) ↔ _
    rw [mem_insertDesc, ih]
    simp

theorem lookup_of_mem_keys {l : List (Int × List Action)} {p : Int}
    (h : p ∈ l.map (·.1)) : ∃ v, lookupLevel p l = some v := by
  induction l with
  | nil => simp at h
  | cons e es ih =>
    obtain ⟨k, v⟩ := e
    rw [List.map_cons, List.mem_cons] at h
    by_cases hpk : p = k
    · exact ⟨v, by simp [lookupLevel, hpk]⟩
    · obtain ⟨w, hw⟩ := ih (h.resolve_left hpk)
      exact ⟨w, by simp [lookupLevel, hpk, hw]⟩

theorem mem_keys_of_lookup {l : List (Int × List Action)} {p : Int} {v : List Action}
    (h : lookupLevel p l = some v) : p ∈ l.map (·.1) := by
  induction l with
  | nil => simp [lookupLevel] at h
  | cons e es ih =>
    obtain ⟨k, w⟩ := e
    by_cases hpk : p = k
    · simp [hpk]
    · rw [lookupLevel, if_neg hpk] at h
      simp [ih h]

theorem lookup_nodup_of_mem {l : List (Int × List Action)} {p : Int} {v : List Action}
    (hnd : (l.map (·.1)).Nodup) (hmem : (p, v) ∈ l) : lookupLevel p l = some v := by
  induction l with
  | nil => simp at hmem
  | cons e es ih =>
    obtain ⟨k, w⟩ := e
    rw [List.map_cons, List.nodup_cons] at hnd
    rcases List.mem_cons.mp hmem with heq | hmem2
    · injection heq with h1 h2
      subst h1; subst h2
      simp [lookupLevel]
    · have hpk : p ≠ k := by
        rintro rfl
        exact hnd.1 (List.mem_map_of_mem (·.1) hmem2)
      rw [lookupLevel, if_neg hpk]
      exact ih hnd.2 hmem2

theorem upd_pair (p : Int) (f : List Action → List Action) (k : Int) (w : List Action) :
    (if (k, w).1 = p then ((k, w).1, f (k, w).2) else (k, w)) =
      if k = p then (k, f w) else (k, w) := by
  by_cases h : k = p <;> simp [h]

theorem lookup_map_update (l : List (Int × List Action)) (p p' : Int)
    (f : List Action → List Action) :
    lookupLevel p' (l.map (fun e => if e.1 = p then (e.1, f e.2) else e)) =
      if p' = p then (lookupLevel p' l).map f else lookupLevel p' l := by
  induction l with
  | nil => simp [lookupLevel]
  | cons e es ih =>
    obtain ⟨k, w⟩ := e
    rw [List.map_cons, upd_pair]
    by_cases hkp : k = p
    · subst hkp
      rw [if_pos rfl]
      by_cases hp'k : p' = k
      · subst hp'k
        simp [lookupLevel]
      · simp [lookupLevel, hp'k, ih]
    · rw [if_neg hkp]
      by_cases hp'k : p' = k
      · subst hp'k
        rw [lookupLevel, if_pos rfl, if_neg (fun h => hkp h), lookupLevel, if_pos rfl]
      · rw [lookupLevel, if_neg hp'k, ih, lookupLevel, if_neg hp'k]

theorem keys_map_update (l : List (Int × List Action)) (p : Int)
    (f : List Action → List Action) :
    (l.map (fun e => if e.1 = p then (e.1, f e.2) else e)).map (·.1) = l.map (·.1) := by
  induction l with
  | nil => simp
  | cons e es ih =>
    by_cases hep : e.1 = p <;> simp [hep, ih]

theorem level_lookup_some {q : ActionQueue} {p : Int} (h : levelOf q p ≠ []) :
    lookupLevel p q.queues = some (levelOf q p) := by
  unfold levelOf at *
  cases hl : lookupLevel p q.queues with
  | none => rw [hl] at h; simp at h
  | some v => rfl

theorem levelOf_addLevel (q : ActionQueue) (p p' : Int) :
    levelOf (addLevel q p) p' = levelOf q p' := by
  unfold addLevel
  by_cases hc : (keysOf q).contains p
  · rw [if_pos hc]
  · rw [if_neg hc]
    show (lookupLevel p' (q.queues ++ [(p, [])])).getD [] = _
    unfold levelOf
    induction q.queues with
    | nil =>
      by_cases hp' : p' = p <;> simp [lookupLevel, hp']
    | cons e es ih =>
      obtain ⟨k, w⟩ := e
      by_cases hp'k : p' = k
      · simp [lookupLevel, hp'k]
      · simp only [List.cons_append, lookupLevel, if_neg hp'k]
        exact ih

theorem keys_addLevel_mem (q : ActionQueue) (p : Int) :
    p ∈ keysOf (addLevel q p) := by
  unfold addLevel
  by_cases hc : (keysOf q).contains p
  · rw [if_pos hc]; simpa using hc
  · rw [if_neg hc]; simp [keysOf]

theorem wf_addLevel {q : ActionQueue} (p : Int) (h : QueueWF q) :
    QueueWF (addLevel q p) := by
  obtain ⟨hp, hnd⟩ := h
  unfold addLevel
  by_cases hc : (keysOf q).contains p
  · rw [if_pos hc]; exact ⟨hp, hnd⟩
  · rw [if_neg hc]
    have hpm : p ∉ keysOf q := by simpa using hc
    constructor
    · rfl
    · show ((q.queues ++ [(p, [])]).map Prod.fst).Nodup
      rw [List.map_append]
      simp only [List.map_cons, List.map_nil]
      rw [List.nodup_append]
      exact ⟨hnd, List.nodup_singleton p, by
        intro x hx hx'
        simp only [List.mem_singleton] at hx'
        exact hpm (hx' ▸ hx)⟩

theorem enqueue_levels (q : ActionQueue) (a : Action) :
    levelOf (q.enqueue a) a.priority = levelOf q a.priority ++ [a] ∧
    ∀ p, p ≠ a.priority → levelOf (q.enqueue a) p = levelOf q p := by
  constructor
  · show (lookupLevel a.priority ((addLevel q a.priority).queues.map
      (fun e => if e.1 = a.priority then (e.1, e.2 ++ [a]) else e))).getD [] = _
    rw [lookup_map_update (addLevel q a.priority).queues a.priority a.priority
      (fun l => l ++ [a]), if_pos rfl]
    have hmem := keys_addLevel_mem q a.priority
    obtain ⟨v, hv⟩ := lookup_of_mem_keys (l := (addLevel q a.priority).queues) hmem
    rw [hv]
    have : levelOf (addLevel q a.priority) a.priority = v := by
      unfold levelOf; rw [hv]; rfl
    rw [← levelOf_addLevel q a.priority a.priority, this]
    rfl
  · intro p hp
    show (lookupLevel p ((addLevel q a.priority).queues.map
      (fun e => if e.1 = a.priority then (e.1, e.2 ++ [a]) else e))).getD [] = _
    rw [lookup_map_update (addLevel q a.priority).queues a.priority p
      (fun l => l ++ [a]), if_neg hp]
    exact levelOf_addLevel q a.priority p

theorem wf_enqueue {q : ActionQueue} (a : Action) (h : QueueWF q) :
    QueueWF (q.enqueue a) := by
  have h1 := wf_addLevel a.priority h
  constructor
  · show (addLevel q a.priority).priorities = sortDesc _
    rw [show keysOf (q.enqueue a) = keysOf (addLevel q a.priority) from
      keys_map_update (addLevel q a.priority).queues a.priority (· ++ [a])]
    exact h1.1
  · show (keysOf (q.enqueue a)).Nodup
    rw [show keysOf (q.enqueue a) = keysOf (addLevel q a.priority) from
      keys_map_update (addLevel q a.priority).queues a.priority (· ++ [a])]
    exact h1.2

theorem dequeueFrom_spec (q : ActionQueue) (ps : List Int)
    (hsorted : ps.Sorted (fun a b => b ≤ a))
    (hcover : ∀ p, levelOf q p ≠ [] → p ∈ ps) :
    ∀ a q', dequeueFrom q ps = (some a, q') →
      ∃ p, levelOf q p ≠ [] ∧ (∀ p', levelOf q p' ≠ [] → p' ≤ p) ∧
        (levelOf q p).head? = some a ∧ levelOf q' p = (levelOf q p).drop 1 ∧
        (∀ p'', p'' ≠ p → levelOf q' p'' = levelOf q p'') := by
  induction ps with
  | nil =>
    intro a q' h
    rw [dequeueFrom] at h
    exact absurd h (by simp)
  | cons p ps ih =>
    intro a q' h
    rw [List.sorted_cons] at hsorted
    cases hl : levelOf q p with
    | nil =>
      rw [dequeueFrom, hl] at h
      refine ih hsorted.2 ?_ a q' h
      intro p' hp'
      rcases List.mem_cons.mp (hcover p' hp') with rfl | hmem
      · exact absurd hl hp'
      · exact hmem
    | cons a0 rest =>
      rw [dequeueFrom, hl] at h
      injection h with h1 h2
      injection h1 with h1
      subst h1
      refine ⟨p, by simp [hl], ?_, by simp [hl], ?_, ?_⟩
      · intro p' hp'
        rcases List.mem_cons.mp (hcover p' hp') with rfl | hmem
        · exact le_refl _
        · exact hsorted.1 p' hmem
      · rw [← h2]
        show (lookupLevel p (q.queues.map
          (fun e => if e.1 = p then (e.1, e.2.drop 1) else e))).getD [] = _
        rw [lookup_map_update q.queues p p (fun l => l.drop 1), if_pos rfl,
          level_lookup_some (q := q) (p := p) (by simp [hl]), hl]
        rfl
      · intro p'' hp''
        rw [← h2]
        show (lookupLevel p'' (q.queues.map
          (fun e => if e.1 = p then (e.1, e.2.drop 1) else e))).getD [] = _
        rw [lookup_map_update q.queues p p'' (fun l => l.drop 1), if_neg hp'']
        rfl

theorem dequeueFrom_progress (q : ActionQueue) (ps : List Int) (p0 : Int)
    (h0 : levelOf q p0 ≠ []) (hcover : ∀ p, levelOf q p ≠ [] → p ∈ ps) :
    (dequeueFrom q ps).1.isSome := by
  induction ps with
  | nil => exact absurd (hcover p0 h0) (by simp)
  | cons p ps ih =>
    cases hl : levelOf q p with
    | nil =>
      rw [dequeueFrom, hl]
      refine ih ?_
      intro p' hp'
      rcases List.mem_cons.mp (hcover p' hp') with rfl | hmem
      · exact absurd hl hp'
      · exact hmem
    | cons a0 rest =>
      rw [dequeueFrom, hl]
      rfl

/-- C4: from any well-formed queue state (the invariant holds initially and is
preserved by `enqueue`), `dequeue` returns the front of the highest non-empty
priority level, removing exactly that element, while `enqueue` appends at the
back of its level and touches no other level (strict FIFO per level);
`enqueue_reaction` pins the priority to 100 before enqueueing; and the
enqueue a (p 0), enqueue b (p 0), enqueue_reaction c scenario dequeues
c, a, b. -/
theorem C4_priority_fifo_dequeue_order :
    QueueWF ActionQueue.empty ∧
    (∀ (q : ActionQueue) (a : Action), QueueWF q → QueueWF (q.enqueue a)) ∧
    (∀ (q : ActionQueue) (a : Action),
      q.enqueue_reaction a = q.enqueue { a with priority := 100 }) ∧
    (∀ (q : ActionQueue) (a : Action),
      levelOf (q.enqueue a) a.priority = levelOf q a.priority ++ [a] ∧
      ∀ p, p ≠ a.priority → levelOf (q.enqueue a) p = levelOf q p) ∧
    (∀ q : ActionQueue, QueueWF q → q.is_empty = false → (q.dequeue).1.isSome) ∧
    (∀ (q : ActionQueue) a q', QueueWF q → q.dequeue = (some a, q') →
      ∃ p, levelOf q p ≠ [] ∧ (∀ p', levelOf q p' ≠ [] → p' ≤ p) ∧
        (levelOf q p).head? = some a ∧ levelOf q' p = (levelOf q p).drop 1 ∧
        (∀ p'', p'' ≠ p → levelOf q' p'' = levelOf q p'')) ∧
    ((((ActionQueue.empty.enqueue ⟨"a", "player", "ta", 0⟩).enqueue
        ⟨"b", "player", "tb", 0⟩).enqueue_reaction ⟨"c", "goblin", "tc", 0⟩).dequeue.1.map
          (·.id) = some "c" ∧
      ((((ActionQueue.empty.enqueue ⟨"a", "player", "ta", 0⟩).enqueue
        ⟨"b", "player", "tb", 0⟩).enqueue_reaction ⟨"c", "goblin", "tc", 0⟩).dequeue.2.dequeue.1.map
          (·.id) = some "a") ∧
      ((((ActionQueue.empty.enqueue ⟨"a", "player", "ta", 0⟩).enqueue
        ⟨"b", "player", "tb", 0⟩).enqueue_reaction ⟨"c", "goblin", "tc", 0⟩).dequeue.2.dequeue.2.dequeue.1.map
          (·.id) = some "b")) := by
  refine ⟨⟨rfl, List.nodup_nil⟩, fun q a h => wf_enqueue a h, fun q a => rfl,
    fun q a => enqueue_levels q a, ?_, ?_, by decide, by decide, by decide⟩
  · intro q hw hne
    unfold ActionQueue.is_empty at hne
    rw [List.all_eq_false] at hne
    obtain ⟨e, hmem, hnee⟩ := hne
    obtain ⟨k, lvl⟩ := e
    have hlev : levelOf q k ≠ [] := by
      unfold levelOf
      rw [lookup_nodup_of_mem hw.2 hmem]
      simpa [List.isEmpty_iff] using hnee
    refine dequeueFrom_progress q q.priorities k hlev ?_
    intro p hp
    rw [hw.1, mem_sortDesc]
    exact mem_keys_of_lookup (level_lookup_some hp)
  · intro q a q' hw hdq
    refine dequeueFrom_spec q q.priorities ?_ ?_ a q' hdq
    · rw [hw.1]; exact sorted_sortDesc _
    · intro p hp
      rw [hw.1, mem_sortDesc]
      exact mem_keys_of_lookup (level_lookup_some hp)

/-- Closed instance for C4: the invariant holds after two enqueues, dequeue on
that concrete queue returns the front of its highest non-empty level, and the
level bookkeeping of `enqueue` is visible on a concrete state. -/
theorem C4_priority_fifo_dequeue_order_witness :
    QueueWF (ActionQueue.empty.enqueue ⟨"a", "player", "ta", 0⟩) ∧
    (∃ p, levelOf (ActionQueue.empty.enqueue ⟨"a", "player", "ta", 0⟩) p ≠ [] ∧
      (∀ p', levelOf (ActionQueue.empty.enqueue ⟨"a", "player", "ta", 0⟩) p' ≠ [] → p' ≤ p) ∧
      (levelOf (ActionQueue.empty.enqueue ⟨"a", "player", "ta", 0⟩) p).head? =
        some ⟨"a", "player", "ta", 0⟩ ∧
      levelOf ⟨[(0, [])], [0]⟩ p =
        (levelOf (ActionQueue.empty.enqueue ⟨"a", "player", "ta", 0⟩) p).drop 1 ∧
      (∀ p'', p'' ≠ p → levelOf (⟨[(0, [])], [0]⟩ : ActionQueue) p'' =
        levelOf (ActionQueue.empty.enqueue ⟨"a", "player", "ta", 0⟩) p'')) :=
  ⟨C4_priority_fifo_dequeue_order.2.1 ActionQueue.empty ⟨"a", "player", "ta", 0⟩
      C4_priority_fifo_dequeue_order.1,
   C4_priority_fifo_dequeue_order.2.2.2.2.2.1
     (ActionQueue.empty.enqueue ⟨"a", "player", "ta", 0⟩) ⟨"a", "player", "ta", 0⟩
     ⟨[(0, [])], [0]⟩
     (C4_priority_fifo_dequeue_order.2.1 ActionQueue.empty ⟨"a", "player", "ta", 0⟩
       C4_priority_fifo_dequeue_order.1)
     (by decide)⟩

/-- Modelled from the spec: the `GameState` shape the core and the scenario
builder use.  `state_manager.py` reads `state.player` and `state.location`,
and `scenarios/test_encounter.py` constructs `GameState(player=..., level=...,
location=..., recent_actions=...)`; the `models/state.py` generation instead
names the fields `current_level`/`current_room` and is not the shape the core
was written against.  Game objects (player, entities, items, rooms) are
dynamic values (`PyVal` objects) since `_mutate_target` manipulates them by
reflection. -/
structure GameState where
  player : PyVal
  level : PyVal
  location : PyVal
  recent_actions : List String

/-- Field lookup in a keyed field list. -/
def lookupField (k : String) : List (String × PyVal) → Option PyVal
  | [] => Option.none
  | (k1, v) :: es => if k = k1 then some v else lookupField k es

/-- Attribute read on an object value (`None` when absent or not an object). -/
def objField (v : PyVal) (k : String) : Option PyVal :=
  match v with
  | .obj fields => lookupField k fields
  | _ => Option.none

/-- Modelled from the spec: the `.id` attribute carried by every game object
(`Base.id` in the models; `PlayerCharacter` in `models/state.py` lacks it even
though `get_entity` compares `state.player.id`).  A malformed object without a
string id matches no lookup. -/
def idOf (v : PyVal) : Option String :=
  match objField v "id" with
  | some (.str s) => some s
  | _ => Option.none

/-- A list-valued attribute; Python `None` or a missing attribute behaves as
the empty collection in the `if xs:`-guarded loops of `get_entity`. -/
def listField (v : PyVal) (k : String) : List PyVal :=
  match objField v k with
  | some (.list xs) => xs
  | _ => []

/-- Where in the `GameState` hierarchy `get_entity` found its target; used to
model Python's in-place mutation of the aliased object as a functional
write-back. -/
inductive Loc where
  | player
  | playerInvItem (i : Nat)
  | location
  | occupant (i : Nat)
  | roomItem (i : Nat)
deriving DecidableEq

/-- The membership test of the occupant/item scans of `get_entity`: plain id
strings are skipped (`isinstance(entity, str: continue`), otherwise the `.id`
attribute is compared. -/
def matchesId (entity_id : String) (v : PyVal) : Bool :=
  match v with
  | .str _ => false
  | _ => idOf v == some entity_id

/-- The search order of `StateManager.get_entity` (state_manager.py lines
21-63): player, player inventory, the room itself, room occupants, room items;
first match wins.  Returns the location of the match. -/
def findLoc (state : GameState) (entity_id : String) : Option Loc :=
  if idOf state.player == some entity_id then some .player
  else
    match (listField state.player "inventory").findIdx?
        (fun it => idOf it == some entity_id) with
    | some i => some (.playerInvItem i)
    | Option.none =>
      if idOf state.location == some entity_id then some .location
      else
        match (listField state.location "occupants").findIdx? (matchesId entity_id) with
        | some i => some (.occupant i)
        | Option.none =>
          match (listField state.location "items").findIdx? (matchesId entity_id) with
          | some i => some (.roomItem i)
          | Option.none => Option.none

/-- Read the object stored at a location. -/
def readLoc (s : GameState) (loc : Loc) : PyVal :=
  match loc with
  | .player => s.player
  | .playerInvItem i => (listField s.player "inventory").getD i .none
  | .location => s.location
  | .occupant i => (listField s.location "occupants").getD i .none
  | .roomItem i => (listField s.location "items").getD i .none

/-- Embedding of `StateManager.get_entity`: the object found by the hierarchy search, or
`None`. -/
def get_entity (s : GameState) (entity_id : String) : Option PyVal :=
  (findLoc s entity_id).map (readLoc s)

/-- Replace (or create) a key in a field list, preserving order. -/
def setField (k : String) (newVal : PyVal) : List (String × PyVal) → List (String × PyVal)
  | [] => [(k, newVal)]
  | (k1, v) :: es => if k = k1 then (k1, newVal) :: es else (k1, v) :: setField k newVal es

/-- Set an attribute on an object value. -/
def setObjField (v : PyVal) (k : String) (newVal : PyVal) : PyVal :=
  match v with
  | .obj fields => .obj (setField k newVal fields)
  | _ => v

/-- Write an object back at the location it was found (the model of Python's
in-place aliasing). -/
def writeLoc (s : GameState) (loc : Loc) (v : PyVal) : GameState :=
  match loc with
  | .player => { s with player := v }
  | .playerInvItem i =>
    { s with player :=
        setObjField s.player "inventory" (.list ((listField s.player "inventory").set i v)) }
  | .location => { s with location := v }
  | .occupant i =>
    { s with location :=
        setObjField s.location "occupants" (.list ((listField s.location "occupants").set i v)) }
  | .roomItem i =>
    { s with location :=
        setObjField s.location "items" (.list ((listField s.location "items").set i v)) }

/-- Python `attribute.split('.')`: split on every dot, keeping empty pieces;
always returns at least one piece. -/
def splitDotsAux : List Char → List Char → List String
  | [], acc => [⟨acc.reverse⟩]
  | c :: cs, acc =>
    if c = '.' then (⟨acc.reverse⟩ : String) :: splitDotsAux cs []
    else splitDotsAux cs (c :: acc)

/-- Split a dot-path into its segments. -/
def splitDots (s : String) : List String := splitDotsAux s.data []

/-- One traversal step of `_mutate_target` (state_manager.py lines 114-118):
dicts are read with `.get` (absent key gives `None`), other values with
`getattr` (absent attribute raises `AttributeError`; so does `getattr` on a
non-object such as an int or a string). -/
def stepAttr (parent : PyVal) (key : String) : Except String PyVal :=
  match parent with
  | .dict entries =>
    match lookupField key entries with
    | some v => .ok v
    | Option.none => .ok .none
  | .obj fields =>
    match lookupField key fields with
    | some v => .ok v
    | Option.none => .error ("AttributeError: no attribute " ++ key)
  | _ => .error ("AttributeError: no attribute " ++ key)

/-- The prefix walk of `_mutate_target` (lines 113-121): step through each
intermediate segment and raise `AttributeError` when the reached value is
`None` (a broken path). -/
def walkPath (target : PyVal) : List String → Except String PyVal
  | [] => .ok target
  | key :: rest =>
    match stepAttr target key with
    | .error e => .error e
    | .ok child =>
      match child with
      | .none => .error ("AttributeError: path broken at " ++ key)
      | _ => walkPath child rest

/-- Reading the current value at the final segment (lines 125-129): `.get` on
a dict (`None` when absent, without error), `getattr` otherwise. -/
def readFinal (parent : PyVal) (key : String) : Except String PyVal :=
  match parent with
  | .dict entries => .ok ((lookupField key entries).getD .none)
  | .obj fields =>
    match lookupField key fields with
    | some v => .ok v
    | Option.none => .error ("AttributeError: no attribute " ++ key)
  | _ => .error ("AttributeError: no attribute " ++ key)

/-- Python `list.remove` guarded by the membership test: drop the first equal
element, no-op when absent. -/
def removeFirst (v : PyVal) : List PyVal → List PyVal
  | [] => []
  | x :: xs => if pyBeq x v then xs else x :: removeFirst v xs

/-- The operation dispatch of `_mutate_target` (lines 131-165): `set` replaces
unconditionally; `add` is numeric-only; `remove` is numeric subtraction or
first-occurrence list removal; `append` is list-only; anything else raises
`Unknown operation`.  Mixed-type arithmetic raises as in Python. -/
def applyOp (operation : String) (current value : PyVal) : Except String PyVal :=
  if operation = "set" then .ok value
  else if operation = "add" then
    match current, value with
    | .int a, .int b => .ok (.int (a + b))
    | .int _, _ => .error "TypeError: unsupported operand type for add"
    | _, _ => .error "ValueError: Cannot add to non-numeric type"
  else if operation = "remove" then
    match current, value with
    | .int a, .int b => .ok (.int (a - b))
    | .int _, _ => .error "TypeError: unsupported operand type for remove"
    | .list xs, _ => .ok (.list (removeFirst value xs))
    | _, _ => .error "ValueError: Cannot remove from type"
  else if operation = "append" then
    match current, value with
    | .list xs, _ => .ok (.list (xs ++ [value]))
    | _, _ => .error "ValueError: Cannot append to non-list type"
  else .error ("ValueError: Unknown operation: " ++ operation)

/-- The commit step of `_mutate_target` (lines 167-171): write the new value
at the final segment of the path.  The Python code writes through the parent
reference obtained by the walk; re-walking the same segments functionally is
equivalent because the successful walk passed exactly through these
dict/object children. -/
def writePath (target : PyVal) : List String → PyVal → PyVal
  | [], _ => target
  | [key], newVal =>
    match target with
    | .dict entries => .dict (setField key newVal entries)
    | .obj fields => .obj (setField key newVal fields)
    | _ => target
  | key :: rest, newVal =>
    match target with
    | .dict entries =>
      match lookupField key entries with
      | some child => .dict (setField key (writePath child rest newVal) entries)
      | Option.none => target
    | .obj fields =>
      match lookupField key fields with
      | some child => .obj (setField key (writePath child rest newVal) fields)
      | Option.none => target
    | _ => target

/-- Embedding of `StateManager._mutate_target` (state_manager.py lines 105-171): resolve
the attribute path to the penultimate segment, read the current value at the
final segment, apply the operation, and only then commit.  Every failure
(broken path, missing attribute, type mismatch, unknown operation) raises
before the commit step. -/
def mutate_target (target : PyVal) (change : StateChange) : Except String PyVal :=
  let attr_path := splitDots change.attr
  match walkPath target attr_path.dropLast with
  | .error e => .error e
  | .ok parent =>
    match readFinal parent (attr_path.getLastD "") with
    | .error e => .error e
    | .ok current =>
      match applyOp change.operation current change.value with
      | .error e => .error e
      | .ok newVal => .ok (writePath target attr_path newVal)

/-- Embedding of `StateManager.apply_change` (state_manager.py lines 82-103): an
unresolvable target is logged and silently dropped; a mutation failure is
logged and re-raised. -/
def apply_change (s : GameState) (change : StateChange) : Except String GameState :=
  match findLoc s change.target_id with
  | Option.none => .ok s
  | some loc =>
    match mutate_target (readLoc s loc) change with
    | .error e => .error e
    | .ok t2 => .ok (writeLoc s loc t2)

/-- A small concrete game state used for closed instances: a player `p1` with
integer hp, an empty inventory, and an empty room `room`. -/
def sampleState : GameState :=
  ⟨.obj [("id", .str "p1"), ("hp", .int 10), ("inventory", .list [])],
   .obj [("id", .str "lvl")],
   .obj [("id", .str "room"), ("occupants", .list []), ("items", .list [])],
   []⟩

theorem apply_change_err_of_mutate {s : GameState} {change : StateChange} {loc : Loc}
    {e : String} (hloc : findLoc s change.target_id = some loc)
    (hm : mutate_target (readLoc s loc) change = .error e) :
    apply_change s change = .error e := by
  simp only [apply_change, hloc, hm]

theorem mutate_err_of_walk {t : PyVal} {change : StateChange} {m : String}
    (hw : walkPath t (splitDots change.attr).dropLast = .error m) :
    mutate_target t change = .error m := by
  simp only [mutate_target, hw]

theorem mutate_err_of_read {t : PyVal} {change : StateChange} {parent : PyVal} {m : String}
    (hw : walkPath t (splitDots change.attr).dropLast = .ok parent)
    (hr : readFinal parent ((splitDots change.attr).getLastD "") = .error m) :
    mutate_target t change = .error m := by
  simp only [mutate_target, hw, hr]

theorem mutate_err_of_op {t : PyVal} {change : StateChange} {parent current : PyVal}
    {m : String}
    (hw : walkPath t (splitDots change.attr).dropLast = .ok parent)
    (hr : readFinal parent ((splitDots change.attr).getLastD "") = .ok current)
    (ha : applyOp change.operation current change.value = .error m) :
    mutate_target t change = .error m := by
  simp only [mutate_target, hw, hr, ha]

/-- C5: a `StateChange` whose `target_id` resolves to no entity does not raise
and leaves the `GameState` completely unchanged: `apply_change` returns the
input state itself. -/
theorem C5_unresolvable_target_is_dropped :
    ∀ (s : GameState) (change : StateChange),
      get_entity s change.target_id = Option.none →
      apply_change s change = .ok s := by
  intro s change h
  unfold get_entity at h
  rw [Option.map_eq_none'] at h
  simp only [apply_change, h]

/-- Closed instance for C5: a change aimed at the nonexistent id `ghost` on a
concrete state returns the state untouched. -/
theorem C5_unresolvable_target_is_dropped_witness :
    apply_change sampleState ⟨"ghost", "hp", "add", .int 1⟩ = .ok sampleState :=
  C5_unresolvable_target_is_dropped sampleState ⟨"ghost", "hp", "add", .int 1⟩ (by rfl)

/-- C9: whenever the mutation of a resolvable target must fail — an unknown
operation string, an attribute path broken at an intermediate segment, an
`add` on a non-numeric current value, or an `append` on a non-list current
value — `apply_change` raises (returns an error, so no new state is produced
and the change is atomic: every such error occurs before the commit step of
`_mutate_target`). -/
theorem C9_mutation_failures_raise_before_commit :
    (∀ (s : GameState) (change : StateChange) (loc : Loc),
      findLoc s change.target_id = some loc →
      change.operation ≠ "set" → change.operation ≠ "add" →
      change.operation ≠ "remove" → change.operation ≠ "append" →
      ∃ e, apply_change s change = .error e) ∧
    (∀ (s : GameState) (change : StateChange) (loc : Loc) (m : String),
      findLoc s change.target_id = some loc →
      walkPath (readLoc s loc) (splitDots change.attr).dropLast = .error m →
      apply_change s change = .error m) ∧
    (∀ (s : GameState) (change : StateChange) (loc : Loc) (parent current : PyVal),
      findLoc s change.target_id = some loc →
      walkPath (readLoc s loc) (splitDots change.attr).dropLast = .ok parent →
      readFinal parent ((splitDots change.attr).getLastD "") = .ok current →
      change.operation = "add" → (∀ n, current ≠ .int n) →
      ∃ e, apply_change s change = .error e) ∧
    (∀ (s : GameState) (change : StateChange) (loc : Loc) (parent current : PyVal),
      findLoc s change.target_id = some loc →
      walkPath (readLoc s loc) (splitDots change.attr).dropLast = .ok parent →
      readFinal parent ((splitDots change.attr).getLastD "") = .ok current →
      change.operation = "append" → (∀ xs, current ≠ .list xs) →
      ∃ e, apply_change s change = .error e) := by
  refine ⟨?_, ?_, ?_, ?_⟩
  · intro s change loc hloc h1 h2 h3 h4
    cases hw : walkPath (readLoc s loc) (splitDots change.attr).dropLast with
    | error e => exact ⟨e, apply_change_err_of_mutate hloc (mutate_err_of_walk hw)⟩
    | ok parent =>
      cases hr : readFinal parent ((splitDots change.attr).getLastD "") with
      | error e => exact ⟨e, apply_change_err_of_mutate hloc (mutate_err_of_read hw hr)⟩
      | ok current =>
        refine ⟨"ValueError: Unknown operation: " ++ change.operation,
          apply_change_err_of_mutate hloc (mutate_err_of_op hw hr ?_)⟩
        unfold applyOp
        rw [if_neg h1, if_neg h2, if_neg h3, if_neg h4]
  · intro s change loc m hloc hw
    exact apply_change_err_of_mutate hloc (mutate_err_of_walk hw)
  · intro s change loc parent current hloc hw hr hop hne
    have ha : ∃ e, applyOp change.operation current change.value = .error e := by
      rw [hop]
      unfold applyOp
      rw [if_neg (by decide), if_pos rfl]
      cases current with
      | int n => exact absurd rfl (hne n)
      | str a => exact ⟨_, rfl⟩
      | list xs => exact ⟨_, rfl⟩
      | dict es => exact ⟨_, rfl⟩
      | obj fs => exact ⟨_, rfl⟩
      | none => exact ⟨_, rfl⟩
    obtain ⟨e, ha⟩ := ha
    exact ⟨e, apply_change_err_of_mutate hloc (mutate_err_of_op hw hr ha)⟩
  · intro s change loc parent current hloc hw hr hop hne
    have ha : ∃ e, applyOp change.operation current change.value = .error e := by
      rw [hop]
      unfold applyOp
      rw [if_neg (by decide), if_neg (by decide), if_neg (by decide), if_pos rfl]
      cases current with
      | list xs => exact absurd rfl (hne xs)
      | int n => exact ⟨_, rfl⟩
      | str a => exact ⟨_, rfl⟩
      | dict es => exact ⟨_, rfl⟩
      | obj fs => exact ⟨_, rfl⟩
      | none => exact ⟨_, rfl⟩
    obtain ⟨e, ha⟩ := ha
    exact ⟨e, apply_change_err_of_mutate hloc (mutate_err_of_op hw hr ha)⟩

/-- Closed instances for C9 on the concrete state: an unknown operation, a
path broken at `stats`, an `add` on the string-valued `id`, and an `append` on
the integer-valued `hp` all make `apply_change` raise. -/
theorem C9_mutation_failures_raise_before_commit_witness :
    (∃ e, apply_change sampleState ⟨"p1", "hp", "frobnicate", .int 1⟩ = .error e) ∧
    (apply_change sampleState ⟨"p1", "stats.hp", "set", .int 1⟩ =
      .error "AttributeError: no attribute stats") ∧
    (∃ e, apply_change sampleState ⟨"p1", "id", "add", .int 1⟩ = .error e) ∧
    (∃ e, apply_change sampleState ⟨"p1", "hp", "append", .int 1⟩ = .error e) :=
  ⟨C9_mutation_failures_raise_before_commit.1 sampleState ⟨"p1", "hp", "frobnicate", .int 1⟩
      .player (by rfl) (by decide) (by decide) (by decide) (by decide),
   C9_mutation_failures_raise_before_commit.2.1 sampleState
      ⟨"p1", "stats.hp", "set", .int 1⟩ .player "AttributeError: no attribute stats"
      (by rfl) (by rfl),
   C9_mutation_failures_raise_before_commit.2.2.1 sampleState ⟨"p1", "id", "add", .int 1⟩
      .player sampleState.player (.str "p1") (by rfl) (by rfl) (by rfl) rfl
      (fun n h => PyVal.noConfusion h),
   C9_mutation_failures_raise_before_commit.2.2.2 sampleState ⟨"p1", "hp", "append", .int 1⟩
      .player sampleState.player (.int 10) (by rfl) (by rfl) (by rfl) rfl
      (fun xs h => PyVal.noConfusion h)⟩

/-- Embedding of `ResolutionStatus` from `models/actions.py`. -/
inductive ResolutionStatus where
  | PENDING | AWAITING_ROLL | AWAITING_DECISION | RESOLVED | CANCELLED
deriving DecidableEq

/-- Embedding of `ActionPlan` from `models/actions.py`; `conditional_rolls` is the dict
from roll index to follow-up specs (association list in insertion order).
The fields `on_success` and `on_failure` are Modelled from the spec:
`execute_plan` reads `plan.on_success`/`plan.on_failure` (resolution_engine.py
lines 47-50) and the specification's step 5 prescribes plan-level outcome
changes, but `models/actions.py` does not declare these fields. -/
structure ActionPlan where
  action_type : ActionType
  actor_id : String
  target_ids : List String
  required_rolls : List RollSpec
  conditional_rolls : List (Nat × List RollSpec)
  potential_reactions : List String
  narrative_context : String
  on_success : List StateChange
  on_failure : List StateChange

/-- Embedding of `Resolution` from `models/actions.py`: the working record of one action's
execution. -/
structure Resolution where
  action_plan : ActionPlan
  status : ResolutionStatus
  roll_results : List RollResult
  current_roll_index : Nat
  pending_state_changes : List StateChange
  narration_fragments : List String
  triggered_reactions : List Action

/-- Dict lookup in `conditional_rolls` (`roll_index in plan.conditional_rolls`
followed by `plan.conditional_rolls[roll_index]`). -/
def lookupCond (idx : Nat) : List (Nat × List RollSpec) → Option (List RollSpec)
  | [] => Option.none
  | (k, v) :: es => if idx = k then some v else lookupCond idx es

/-- Embedding of `ResolutionEngine._narrate_roll` (resolution_engine.py lines 92-102).  The
critical branches read `result.critical_success`/`critical_failure`, which are
Modelled from the spec: `RollOutcome` has only `SUCCESS`/`FAILURE` (the
critical variants are commented out), so per the spec those branches are
unreachable and the flags are constantly false; `spec.reason` is the
`explanation` field and `spec.dc or spec.target_ac` the `threshold`. -/
def narrate_roll (result : RollResult) : String :=
  if result.success then
    "[SUCCESS] " ++ result.spec.explanation ++ ": rolled " ++ toString result.total ++
      " vs " ++ toString result.spec.threshold
  else
    "[FAILURE] " ++ result.spec.explanation ++ ": rolled " ++ toString result.total ++
      " vs " ++ toString result.spec.threshold

/-- Total size of the conditional-roll entries whose key is at least `idx`:
the part of `conditional_rolls` the roll loop can still splice in.  Strictly
bounds the loop (the termination measure of `execRolls`). -/
def condWeight (cond : List (Nat × List RollSpec)) (idx : Nat) : Nat :=
  ((cond.filter (fun p => idx ≤ p.1)).map (fun p => p.2.length)).sum

theorem condWeight_cons (k : Nat) (v : List RollSpec) (es : List (Nat × List RollSpec))
    (idx : Nat) :
    condWeight ((k, v) :: es) idx = (if idx ≤ k then v.length else 0) + condWeight es idx := by
  unfold condWeight
  by_cases h : idx ≤ k
  · rw [List.filter_cons_of_pos (by simpa using h), if_pos h]
    simp
  · rw [List.filter_cons_of_neg (by simpa using h), if_neg h]
    simp

theorem condWeight_succ_le (cond : List (Nat × List RollSpec)) (idx : Nat) :
    condWeight cond (idx + 1) ≤ condWeight cond idx := by
  induction cond with
  | nil => simp [condWeight]
  | cons e es ih =>
    obtain ⟨k, v⟩ := e
    rw [condWeight_cons, condWeight_cons]
    split_ifs <;> omega

theorem condWeight_lookup (cond : List (Nat × List RollSpec)) (idx : Nat)
    (cs : List RollSpec) (h : lookupCond idx cond = some cs) :
    cs.length + condWeight cond (idx + 1) ≤ condWeight cond idx := by
  induction cond with
  | nil => simp [lookupCond] at h
  | cons e es ih =>
    obtain ⟨k, v⟩ := e
    by_cases hk : idx = k
    · rw [lookupCond, if_pos hk] at h
      injection h with h
      subst h
      subst hk
      rw [condWeight_cons, condWeight_cons]
      have h1 := condWeight_succ_le es idx
      split_ifs <;> omega
    · rw [lookupCond, if_neg hk] at h
      have h1 := ih h
      rw [condWeight_cons, condWeight_cons]
      split_ifs <;> omega

/-- The roll loop of `ResolutionEngine.execute_plan` (resolution_engine.py
lines 20-41): walk the growable working list by index; execute each roll;
when a roll succeeds and the current index is a key of `conditional_rolls`,
splice that key's specs immediately after the current position before
continuing.  Produces the executed results, their narration fragments, and
the final generator state. -/
def execRolls (cond : List (Nat × List RollSpec)) (idx : Nat)
    (working : List RollSpec) (g : Rng) :
    Except String (List RollResult × List String × Rng) :=
  match working with
  | [] => .ok ([], [], g)
  | r :: rest =>
    match execute_roll r g with
    | .error e => .error e
    | .ok (res, g1) =>
      let inserted := if res.success then (lookupCond idx cond).getD [] else []
      match execRolls cond (idx + 1) (inserted ++ rest) g1 with
      | .error e => .error e
      | .ok (results, frags, g2) => .ok (res :: results, narrate_roll res :: frags, g2)
termination_by working.length + condWeight cond idx
decreasing_by
  cases _hs : res.success with
  | true =>
    rw [dif_pos rfl]
    cases hl : lookupCond idx cond with
    | none =>
      have h1 := condWeight_succ_le cond idx
      simp only [hl, Option.getD_none, List.nil_append, List.length_cons]
      omega
    | some cs =>
      have h1 := condWeight_lookup cond idx cs hl
      simp only [hl, Option.getD_some, List.length_append, List.length_cons]
      omega
  | false =>
    rw [dif_neg (by simp)]
    have h1 := condWeight_succ_le cond idx
    simp only [List.nil_append, List.length_cons]
    omega

/-- Embedding of `ResolutionEngine._evaluate_success` (resolution_engine.py lines 60-72):
auto-success with no rolls; otherwise every primary roll (type `ATTACK`,
`CHECK`, `SAVE` or `CONTEST`) must have succeeded; `DAMAGE` rolls are not
primary. -/
def evaluate_success (resolution : Resolution) : Bool :=
  if resolution.roll_results.isEmpty then true
  else
    (resolution.roll_results.filter (fun r =>
      r.spec.roll_type == RollType.ATTACK || r.spec.roll_type == RollType.CHECK ||
        r.spec.roll_type == RollType.SAVE || r.spec.roll_type == RollType.CONTEST)).all
      (fun r => r.success)

/-- Modelled from the spec: the entity reaction capability consulted by
`_check_reactions` (`entity.has_reaction_to(action_type, success)` and
`entity.get_reaction_intent(action_type)`).  The spec calls this an entity
capability external to the resolution core, and no Entity class in the
sources defines the two methods, so they are abstract parameters here. -/
structure ReactionCap where
  has_reaction_to : PyVal → ActionType → Bool → Bool
  get_reaction_intent : PyVal → ActionType → String

/-- Embedding of `ResolutionEngine._check_reactions` (resolution_engine.py lines 74-90):
for each entity id in `potential_reactions`, resolve it through
`StateManager.get_entity`; if it has a reaction to this `(action_type,
success)` pair, synthesize a priority-100 reaction `Action` whose id is the
string `reaction_` + entity id + `_` + actor id. -/
def check_reactions (cap : ReactionCap) (s : GameState) (plan : ActionPlan)
    (success : Bool) : List Action :=
  plan.potential_reactions.filterMap (fun entity_id =>
    match get_entity s entity_id with
    | some entity =>
      if cap.has_reaction_to entity plan.action_type success then
        some ⟨"reaction_" ++ entity_id ++ "_" ++ plan.actor_id, entity_id,
              cap.get_reaction_intent entity plan.action_type, 100⟩
      else Option.none
    | Option.none => Option.none)

/-- Embedding of `ResolutionEngine.execute_plan` (resolution_engine.py lines 11-58): mark
the resolution `AWAITING_ROLL`, run the roll loop, decide overall success,
set `pending_state_changes` from the plan's `on_success`/`on_failure`,
collect triggered reactions and mark the resolution `RESOLVED`. -/
def execute_plan (cap : ReactionCap) (s : GameState) (resolution : Resolution)
    (g : Rng) : Except String (Resolution × Rng) :=
  let plan := resolution.action_plan
  let res1 : Resolution := { resolution with status := .AWAITING_ROLL }
  match execRolls plan.conditional_rolls 0 plan.required_rolls g with
  | .error e => .error e
  | .ok (results, frags, g1) =>
    let res2 : Resolution :=
      { res1 with
          roll_results := res1.roll_results ++ results,
          narration_fragments := res1.narration_fragments ++ frags }
    let overall := evaluate_success res2
    let res3 : Resolution :=
      { res2 with
          pending_state_changes := if overall then plan.on_success else plan.on_failure }
    let res4 : Resolution :=
      { res3 with triggered_reactions := check_reactions cap s plan overall }
    .ok ({ res4 with status := .RESOLVED }, g1)

/-- The fresh `Resolution(action_plan=plan)` the controller builds before
executing (all other fields at their defaults). -/
def Resolution.of_plan (plan : ActionPlan) : Resolution := ⟨plan, .PENDING, [], 0, [], [], []⟩

theorem exec_roll_spec_eq {r : RollSpec} {g : Rng} {res : RollResult} {g1 : Rng}
    (h : execute_roll r g = .ok (res, g1)) : res.spec = r := by
  unfold execute_roll at h
  dsimp only at h
  split at h
  · exact absurd h (by simp)
  · split at h <;>
      (simp only [Except.ok.injEq, Prod.mk.injEq] at h; obtain ⟨h1, h2⟩ := h; rw [← h1])

theorem lookupCond_none_of_lt {cond : List (Nat × List RollSpec)} {j : Nat}
    (h : ∀ p ∈ cond, p.1 < j) : lookupCond j cond = Option.none := by
  induction cond with
  | nil => rfl
  | cons e es ih =>
    obtain ⟨k, v⟩ := e
    rw [lookupCond, if_neg]
    · exact ih (fun p hp => h p (List.mem_cons_of_mem _ hp))
    · have := h (k, v) (List.mem_cons_self _ _)
      simp only at this
      omega

/-- Once the loop index has passed every conditional key, no more splicing can
happen: the executed specs are exactly the working list. -/
theorem execRolls_all_keys_lt (cond : List (Nat × List RollSpec)) :
    ∀ (working : List RollSpec) (j : Nat) (g : Rng) results frags g2,
      (∀ p ∈ cond, p.1 < j) →
      execRolls cond j working g = .ok (results, frags, g2) →
      results.map (·.spec) = working := by
  intro working
  induction working with
  | nil =>
    intro j g results frags g2 hlt h
    simp only [execRolls, Except.ok.injEq, Prod.mk.injEq] at h
    obtain ⟨h1, h2, h3⟩ := h
    rw [← h1]
    rfl
  | cons r rest ih =>
    intro j g results frags g2 hlt h
    simp only [execRolls] at h
    cases hr : execute_roll r g with
    | error e => rw [hr] at h; exact absurd h (by simp)
    | ok p =>
      obtain ⟨res, g1⟩ := p
      rw [hr] at h
      have hnone : lookupCond j cond = Option.none := lookupCond_none_of_lt hlt
      simp only [hnone, Option.getD_none, ite_self, List.nil_append] at h
      cases h2 : execRolls cond (j + 1) rest g1 with
      | error e => rw [h2] at h; exact absurd h (by simp)
      | ok q =>
        obtain ⟨results1, frags1, g3⟩ := q
        rw [h2] at h
        simp only [Except.ok.injEq, Prod.mk.injEq] at h
        obtain ⟨h1, -, -⟩ := h
        rw [← h1, List.map_cons, exec_roll_spec_eq hr,
          ih (j + 1) g1 results1 frags1 g3 (fun p hp => Nat.lt_succ_of_lt (hlt p hp)) h2]

/-- The roll loop with a single conditional entry `{i: cs}`: the executed
specs are the working list with `cs` spliced in immediately after relative
position `i - j`, exactly when the roll at that position succeeded; when the
working list ends before position `i - j`, nothing is spliced. -/
theorem execRolls_single_key (i : Nat) (cs : List RollSpec) :
    ∀ (working : List RollSpec) (j : Nat) (g : Rng) results frags g2,
      j ≤ i →
      execRolls [(i, cs)] j working g = .ok (results, frags, g2) →
      (match results.get? (i - j) with
       | some r =>
         results.map (·.spec) =
           working.take (i - j + 1) ++ (if r.success then cs else []) ++
             working.drop (i - j + 1)
       | Option.none => results.map (·.spec) = working) := by
  intro working
  induction working with
  | nil =>
    intro j g results frags g2 hji h
    simp only [execRolls, Except.ok.injEq, Prod.mk.injEq] at h
    obtain ⟨h1, -, -⟩ := h
    rw [← h1]
    simp
  | cons r rest ih =>
    intro j g results frags g2 hji h
    simp only [execRolls] at h
    cases hr : execute_roll r g with
    | error e => rw [hr] at h; exact absurd h (by simp)
    | ok p =>
      obtain ⟨res, g1⟩ := p
      rw [hr] at h
      by_cases hj : j = i
      · subst hj
        have hl : lookupCond j [(j, cs)] = some cs := by simp [lookupCond]
        rw [hl] at h
        simp only [Option.getD_some, Nat.sub_self] at h ⊢
        cases hs : res.success with
        | true =>
          rw [hs] at h
          simp only [if_true] at h
          cases h2 : execRolls [(j, cs)] (j + 1) (cs ++ rest) g1 with
          | error e => rw [h2] at h; exact absurd h (by simp)
          | ok q =>
            obtain ⟨results1, frags1, g3⟩ := q
            rw [h2] at h
            simp only [Except.ok.injEq, Prod.mk.injEq] at h
            obtain ⟨h1, -, -⟩ := h
            have hspecs : results1.map (·.spec) = cs ++ rest :=
              execRolls_all_keys_lt [(j, cs)] (cs ++ rest) (j + 1) g1 results1 frags1 g3
                (by intro p hp; rw [List.mem_singleton] at hp; subst hp; omega) h2
            rw [← h1]
            simp only [List.get?_cons_zero, List.map_cons, exec_roll_spec_eq hr, hspecs,
              hs, if_true, List.take_succ_cons, List.take_zero, List.drop_succ_cons,
              List.drop_zero, List.cons_append, List.nil_append]
        | false =>
          rw [hs] at h
          simp only [Bool.false_eq_true, if_false, List.nil_append] at h
          cases h2 : execRolls [(j, cs)] (j + 1) rest g1 with
          | error e => rw [h2] at h; exact absurd h (by simp)
          | ok q =>
            obtain ⟨results1, frags1, g3⟩ := q
            rw [h2] at h
            simp only [Except.ok.injEq, Prod.mk.injEq] at h
            obtain ⟨h1, -, -⟩ := h
            have hspecs : results1.map (·.spec) = rest :=
              execRolls_all_keys_lt [(j, cs)] rest (j + 1) g1 results1 frags1 g3
                (by intro p hp; rw [List.mem_singleton] at hp; subst hp; omega) h2
            rw [← h1]
            simp only [List.get?_cons_zero, List.map_cons, exec_roll_spec_eq hr, hspecs,
              hs, Bool.false_eq_true, if_false, List.take_succ_cons, List.take_zero,
              List.drop_succ_cons, List.drop_zero, List.cons_append, List.nil_append]
      · have hji1 : j + 1 ≤ i := by omega
        have hl : lookupCond j [(i, cs)] = Option.none := by
          simp [lookupCond, hj]
        rw [hl] at h
        simp only [Option.getD_none, ite_self, List.nil_append] at h
        cases h2 : execRolls [(i, cs)] (j + 1) rest g1 with
        | error e => rw [h2] at h; exact absurd h (by simp)
        | ok q =>
          obtain ⟨results1, frags1, g3⟩ := q
          rw [h2] at h
          simp only [Except.ok.injEq, Prod.mk.injEq] at h
          obtain ⟨h1, -, -⟩ := h
          have IH := ih (j + 1) g1 results1 frags1 g3 hji1 h2
          have hij : i - j = (i - (j + 1)) + 1 := by omega
          rw [← h1, hij]
          simp only [List.get?_cons_succ]
          cases hg : results1.get? (i - (j + 1)) with
          | some r0 =>
            rw [hg] at IH
            simp only at IH
            simp only [List.map_cons, exec_roll_spec_eq hr, IH, List.take_succ_cons,
              List.drop_succ_cons, List.cons_append]
          | none =>
            rw [hg] at IH
            simp only at IH
            simp only [List.map_cons, exec_roll_spec_eq hr, IH]

/-- A deterministic check spec: `1d1` always rolls 1 and meets threshold 1. -/
def cspec (t : RollType) (name : String) : RollSpec :=
  ⟨"p", t, "1d1", 1, false, false, ⟨[], []⟩, name, Option.none⟩

/-- A reaction capability where nobody reacts. -/
def capNone : ReactionCap := ⟨fun _ _ _ => false, fun _ _ => ""⟩

/-- The two-key counterexample plan: two required rolls with conditional
entries for the original indices 0 and 1. -/
def cexPlan : ActionPlan :=
  ⟨.ATTACK, "actor", [], [cspec .CHECK "r0", cspec .CHECK "r1"],
   [(0, [cspec .CHECK "c0"]), (1, [cspec .CHECK "c1"])], [], "", [], []⟩

/-- Counterexample for C1.  In plan `cexPlan` every roll succeeds
deterministically, and the claim (conditional keys interpreted against the
*original* `required_rolls` ordering) predicts that the specs for key 1 run
immediately after the second original roll `r1`, i.e. execution order
`r0, c0, r1, c1`.  The engine instead interprets keys against the working
list: after `c0` is spliced in at working position 1, key 1 now names `c0`,
so `c1` is spliced after `c0` and the actual order is `r0, c0, c1, r1`. -/
theorem C1_counterexample_keys_against_working_list :
    ((execute_plan capNone sampleState (Resolution.of_plan cexPlan) []).map
        (fun p => p.1.roll_results.map (fun r => r.spec.explanation))) =
      .ok ["r0", "c0", "c1", "r1"] ∧
    (["r0", "c0", "c1", "r1"] : List String) ≠ ["r0", "c0", "r1", "c1"] := by
  constructor
  · simp [execute_plan, execRolls, execute_roll, roll_dice, parseFormula, pyStrip,
      digitsToNat, rollSum, randint, randNat, lookupCond, RollResult.success, cexPlan,
      cspec, Resolution.of_plan, evaluate_success, check_reactions, Except.map]
  · decide

/-- C1 as amended: `execute_plan` interprets conditional-roll keys against the
working list, splicing the specs for key `i` immediately after the roll at
working position `i` exactly when that roll succeeds.  When the plan has a
single conditional entry (so no earlier insertion can shift the keyed
position), this coincides with the original `required_rolls` ordering: the
specs are spliced immediately after original position `i` exactly when the
roll at original position `i` succeeds. -/
theorem C1_single_conditional_key_splice :
    ∀ (cap : ReactionCap) (s : GameState) (res : Resolution) (i : Nat)
      (cs : List RollSpec) (g : Rng) (out : Resolution) (g1 : Rng),
      res.action_plan.conditional_rolls = [(i, cs)] →
      res.roll_results = [] →
      execute_plan cap s res g = .ok (out, g1) →
      (match out.roll_results.get? i with
       | some r =>
         out.roll_results.map (·.spec) =
           res.action_plan.required_rolls.take (i + 1) ++
             (if r.success then cs else []) ++
             res.action_plan.required_rolls.drop (i + 1)
       | Option.none =>
         out.roll_results.map (·.spec) = res.action_plan.required_rolls) := by
  intro cap s res i cs g out g1 hcond hempty h
  simp only [execute_plan] at h
  cases hE : execRolls res.action_plan.conditional_rolls 0 res.action_plan.required_rolls g with
  | error e => rw [hE] at h; exact absurd h (by simp)
  | ok q =>
    obtain ⟨results, frags, g2⟩ := q
    rw [hE] at h
    simp only [Except.ok.injEq, Prod.mk.injEq] at h
    obtain ⟨h1, h2⟩ := h
    rw [hcond] at hE
    have := execRolls_single_key i cs res.action_plan.required_rolls 0 g results frags g2
      (Nat.zero_le i) hE
    rw [Nat.sub_zero] at this
    have hout : out.roll_results = results := by
      rw [← h1, hempty]
      rfl
    rw [hout]
    exact this

/-- Closed instance for C1's amended statement: a single conditional entry at
key 0 whose attack roll succeeds splices its spec immediately after original
position 0. -/
theorem C1_single_conditional_key_splice_witness :
    ∃ (out : Resolution) (g1 : Rng),
      execute_plan capNone sampleState
        (Resolution.of_plan
          ⟨.ATTACK, "actor", [], [cspec .CHECK "r0", cspec .CHECK "r1"],
           [(0, [cspec .CHECK "c0"])], [], "", [], []⟩) [] = .ok (out, g1) ∧
      (match out.roll_results.get? 0 with
       | some r =>
         out.roll_results.map (·.spec) =
           [cspec .CHECK "r0", cspec .CHECK "r1"].take 1 ++
             (if r.success then [cspec .CHECK "c0"] else []) ++
             [cspec .CHECK "r0", cspec .CHECK "r1"].drop 1
       | Option.none =>
         out.roll_results.map (·.spec) = [cspec .CHECK "r0", cspec .CHECK "r1"]) := by
  have hE : ∃ out g1,
      execute_plan capNone sampleState
        (Resolution.of_plan
          ⟨.ATTACK, "actor", [], [cspec .CHECK "r0", cspec .CHECK "r1"],
           [(0, [cspec .CHECK "c0"])], [], "", [], []⟩) [] = .ok (out, g1) := by
    simp [execute_plan, execRolls, execute_roll, roll_dice, parseFormula, pyStrip,
      digitsToNat, rollSum, randint, randNat, lookupCond, RollResult.success, cspec,
      Resolution.of_plan, evaluate_success, check_reactions]
  obtain ⟨out, g1, hE⟩ := hE
  exact ⟨out, g1, hE,
    C1_single_conditional_key_splice capNone sampleState _ 0 [cspec .CHECK "c0"] [] out g1
      rfl rfl hE⟩

/-- The C2 scenario plan: one required ATTACK roll at threshold 1 (met by the
deterministic `1d1` roll), with a conditional DAMAGE roll for key 0 and one
plan-level on-success change. -/
def c2Plan : ActionPlan :=
  ⟨.ATTACK, "actor", [], [cspec .ATTACK "attack"], [(0, [cspec .DAMAGE "damage"])], [], "",
   [⟨"p1", "hp", "add", .int 1⟩], []⟩

/-- C2: overall success is auto-true with no rolls, and otherwise holds
exactly when every executed primary roll (ATTACK, CHECK, SAVE, CONTEST)
succeeded; DAMAGE rolls never affect the verdict (removing a DAMAGE result
leaves it unchanged); `execute_plan` wires that verdict to the plan's
`on_success`/`on_failure` changes; and the concrete ATTACK-at-threshold plan
with a conditional DAMAGE roll yields exactly two roll results with overall
success true and the on-success changes pending. -/
theorem C2_overall_success_policy :
    (∀ res : Resolution, evaluate_success res = true ↔
      (res.roll_results = [] ∨ ∀ r ∈ res.roll_results,
        (r.spec.roll_type = RollType.ATTACK ∨ r.spec.roll_type = RollType.CHECK ∨
         r.spec.roll_type = RollType.SAVE ∨ r.spec.roll_type = RollType.CONTEST) →
        r.success = true)) ∧
    (∀ (res : Resolution) (l1 l2 : List RollResult) (d : RollResult),
      d.spec.roll_type = RollType.DAMAGE →
      res.roll_results = l1 ++ d :: l2 →
      evaluate_success res = evaluate_success { res with roll_results := l1 ++ l2 }) ∧
    (∀ (cap : ReactionCap) (s : GameState) (res : Resolution) (g : Rng)
      (out : Resolution) (g1 : Rng),
      execute_plan cap s res g = .ok (out, g1) →
      out.pending_state_changes =
        (if evaluate_success out then res.action_plan.on_success
         else res.action_plan.on_failure) ∧
      out.status = ResolutionStatus.RESOLVED) ∧
    ((execute_plan capNone sampleState (Resolution.of_plan c2Plan) []).map
        (fun p => (p.1.roll_results.length, evaluate_success p.1, p.1.pending_state_changes)) =
      .ok (2, true, [⟨"p1", "hp", "add", .int 1⟩])) := by
  refine ⟨?_, ?_, ?_, ?_⟩
  · intro res
    unfold evaluate_success
    by_cases he : res.roll_results.isEmpty
    · rw [if_pos he]
      rw [List.isEmpty_iff] at he
      simp [he]
    · rw [if_neg he]
      rw [List.all_eq_true]
      constructor
      · intro hall
        right
        intro r hr hprim
        apply hall
        rw [List.mem_filter]
        refine ⟨hr, ?_⟩
        rcases hprim with h | h | h | h <;> simp [h]
      · intro hor r hrf
        rw [List.mem_filter] at hrf
        obtain ⟨hr, hpred⟩ := hrf
        rcases hor with hnil | hall
        · rw [hnil] at hr
          exact absurd hr (by simp)
        · apply hall r hr
          simp only [Bool.or_eq_true, beq_iff_eq] at hpred
          tauto
  · intro res l1 l2 d hd hres
    unfold evaluate_success
    rw [hres]
    simp only
    have hne : (l1 ++ d :: l2).isEmpty = false := by simp
    rw [hne]
    by_cases h2 : (l1 ++ l2).isEmpty
    · rw [List.isEmpty_iff, List.append_eq_nil] at h2
      obtain ⟨rfl, rfl⟩ := h2
      simp [hd]
    · rw [Bool.not_eq_true] at h2
      rw [h2]
      simp only [if_false, Bool.false_eq_true]
      rw [List.filter_append, List.filter_append, List.filter_cons]
      simp [hd]
  · intro cap s res g out g1 h
    simp only [execute_plan] at h
    cases hE : execRolls res.action_plan.conditional_rolls 0 res.action_plan.required_rolls g with
    | error e => rw [hE] at h; exact absurd h (by simp)
    | ok q =>
      obtain ⟨results, frags, g2⟩ := q
      rw [hE] at h
      simp only [Except.ok.injEq, Prod.mk.injEq] at h
      obtain ⟨h1, h2⟩ := h
      rw [← h1]
      exact ⟨rfl, rfl⟩
  · simp [execute_plan, execRolls, execute_roll, roll_dice, parseFormula, pyStrip,
      digitsToNat, rollSum, randint, randNat, lookupCond, RollResult.success, c2Plan,
      cspec, Resolution.of_plan, evaluate_success, check_reactions, Except.map]

/-- Closed instance for C2: auto-success on the fresh (roll-free) resolution,
the DAMAGE-irrelevance equation at a concrete damage result, and the
`on_success` wiring on the concrete executed plan. -/
theorem C2_overall_success_policy_witness :
    evaluate_success (Resolution.of_plan c2Plan) = true ∧
    (evaluate_success
        { Resolution.of_plan c2Plan with
            roll_results := [] ++ ⟨cspec .DAMAGE "damage", 1, .SUCCESS, []⟩ :: [] } =
      evaluate_success { Resolution.of_plan c2Plan with roll_results := [] ++ [] }) ∧
    (∃ (out : Resolution) (g1 : Rng),
      execute_plan capNone sampleState (Resolution.of_plan c2Plan) [] = .ok (out, g1) ∧
      out.pending_state_changes =
        (if evaluate_success out then c2Plan.on_success else c2Plan.on_failure) ∧
      out.status = ResolutionStatus.RESOLVED) := by
  refine ⟨(C2_overall_success_policy.1 (Resolution.of_plan c2Plan)).mpr (Or.inl rfl),
    C2_overall_success_policy.2.1 _ [] [] ⟨cspec .DAMAGE "damage", 1, .SUCCESS, []⟩ rfl rfl,
    ?_⟩
  have hE : ∃ out g1,
      execute_plan capNone sampleState (Resolution.of_plan c2Plan) [] = .ok (out, g1) := by
    simp [execute_plan, execRolls, execute_roll, roll_dice, parseFormula, pyStrip,
      digitsToNat, rollSum, randint, randNat, lookupCond, RollResult.success, c2Plan,
      cspec, Resolution.of_plan, evaluate_success, check_reactions]
  obtain ⟨out, g1, hE⟩ := hE
  exact ⟨out, g1, hE, C2_overall_success_policy.2.2.1 capNone sampleState _ [] out g1 hE⟩

/-- A reaction capability where every entity reacts, with an intent that
depends on the triggering action type. -/
def cap8 : ReactionCap :=
  ⟨fun _ _ _ => true, fun _ t => match t with | .ATTACK => "dodge" | _ => "jeer"⟩

/-- An ATTACK plan by `actor` with `p1` as potential reactor. -/
def plan8a : ActionPlan := ⟨.ATTACK, "actor", [], [], [], ["p1"], "", [], []⟩

/-- A CAST plan by the same actor with the same potential reactor. -/
def plan8b : ActionPlan := ⟨.CAST, "actor", [], [], [], ["p1"], "", [], []⟩

/-- Counterexample for C8: reaction ids are built as
`reaction_` + entity id + `_` + actor id, so two distinct reaction Actions by
the same entity to actions of the same actor (here reactions to an ATTACK and
to a CAST, with different intent texts) carry the *same* id — ids are not
fresh. -/
theorem C8_counterexample_reaction_ids_not_fresh :
    check_reactions cap8 sampleState plan8a true =
      [⟨"reaction_p1_actor", "p1", "dodge", 100⟩] ∧
    check_reactions cap8 sampleState plan8b true =
      [⟨"reaction_p1_actor", "p1", "jeer", 100⟩] ∧
    (⟨"reaction_p1_actor", "p1", "dodge", 100⟩ : Action) ≠
      ⟨"reaction_p1_actor", "p1", "jeer", 100⟩ ∧
    (⟨"reaction_p1_actor", "p1", "dodge", 100⟩ : Action).id =
      (⟨"reaction_p1_actor", "p1", "jeer", 100⟩ : Action).id := by
  exact ⟨rfl, rfl, by decide, rfl⟩

/-- C8 as amended: every synthesized reaction is a priority-100 Action whose
id is exactly `reaction_` + its owner entity id + `_` + the trigger plan's
actor id, with the owner drawn from `potential_reactions`; the id is therefore
deterministic in the (entity, actor) pair rather than fresh, and two reactions
by the same entity to actions of the same actor share one id. -/
theorem C8_reaction_id_deterministic_shape :
    ∀ (cap : ReactionCap) (s : GameState) (plan : ActionPlan) (success : Bool)
      (a : Action), a ∈ check_reactions cap s plan success →
      a.id = "reaction_" ++ a.owner_id ++ "_" ++ plan.actor_id ∧ a.priority = 100 ∧
        a.owner_id ∈ plan.potential_reactions := by
  intro cap s plan success a ha
  unfold check_reactions at ha
  rw [List.mem_filterMap] at ha
  obtain ⟨eid, hmem, heq⟩ := ha
  cases hg : get_entity s eid with
  | none => rw [hg] at heq; exact absurd heq (by simp)
  | some entity =>
    simp only [hg] at heq
    by_cases hr : cap.has_reaction_to entity plan.action_type success
    · rw [if_pos hr] at heq
      injection heq with heq
      rw [← heq]
      exact ⟨rfl, rfl, hmem⟩
    · rw [if_neg hr] at heq
      exact absurd heq (by simp)

/-- Closed instance for C8's amended statement, applied to the concrete
ATTACK-plan reaction. -/
theorem C8_reaction_id_deterministic_shape_witness :
    (⟨"reaction_p1_actor", "p1", "dodge", 100⟩ : Action).id =
      "reaction_" ++ (⟨"reaction_p1_actor", "p1", "dodge", 100⟩ : Action).owner_id ++
        "_" ++ plan8a.actor_id ∧
    (⟨"reaction_p1_actor", "p1", "dodge", 100⟩ : Action).priority = 100 ∧
    (⟨"reaction_p1_actor", "p1", "dodge", 100⟩ : Action).owner_id ∈
      plan8a.potential_reactions :=
  C8_reaction_id_deterministic_shape cap8 sampleState plan8a true
    ⟨"reaction_p1_actor", "p1", "dodge", 100⟩ (List.mem_singleton_self _)

/-- Modelled from the spec (section 6): the Oracle contract the controller
consumes.  The Oracle is an external, fallible collaborator; each call either
returns a value or fails (transport failure, parse failure), modelled with
`Except`.  `interpret_action` returns `none` for an invalid action.  The
controller's `get_relevant_context` helper (absent from `StateManager`) is
folded into the oracle parameter: `interpret_action` receives the intent text
and the game state, matching `interpret_action(intent_text, game_state)` in
the spec's contract. -/
structure OracleModel where
  interpret_action : String → GameState → Except String (Option ActionPlan)
  explain_invalid_action : String → GameState → Except String String
  describe_reaction : String → Action → Option PyVal → Except String String

/-- The controller state a drain manipulates: the action queue, the narration
buffer, the game state owned by the `StateManager`, and the random stream. -/
structure CtrlState where
  action_queue : ActionQueue
  narration_buffer : List String
  gs : GameState
  rng : Rng

/-- Phase 3 of `GameController._resolve_action` (game_controller.py lines
110-112): apply each pending state change in order.  A raised change aborts
the batch, carrying the partially mutated state to the handler. -/
def applyChanges (s : CtrlState) : List StateChange → Except (String × CtrlState) CtrlState
  | [] => .ok s
  | c :: cs =>
    match apply_change s.gs c with
    | .error e => .error (e, s)
    | .ok gs1 => applyChanges { s with gs := gs1 } cs

/-- Phase 4 of `_resolve_action` (lines 114-123): ask the Oracle for each
reaction's intent text and enqueue the reaction at the reaction tier.  A
failed Oracle call aborts mid-loop, keeping the reactions already enqueued. -/
def enqueueReactions (o : OracleModel) (a : Action) (s : CtrlState) :
    List Action → Except (String × CtrlState) CtrlState
  | [] => .ok s
  | r :: rs =>
    match o.describe_reaction r.owner_id a (get_entity s.gs r.owner_id) with
    | .error e => .error (e, s)
    | .ok desc =>
      enqueueReactions o a
        { s with action_queue := s.action_queue.enqueue_reaction { r with intent_text := desc } }
        rs

/-- The body of the `try` block of `_resolve_action` (lines 94-123):
interpret, narrate-and-return on an invalid action, execute the plan, extend
the narration buffer, apply the pending changes, enqueue the described
reactions.  An error at any point carries the state built so far (Python
keeps all mutations made before the exception). -/
def resolve_pipeline (o : OracleModel) (cap : ReactionCap) (a : Action)
    (s : CtrlState) : Except (String × CtrlState) CtrlState :=
  match o.interpret_action a.intent_text s.gs with
  | .error e => .error (e, s)
  | .ok Option.none =>
    match o.explain_invalid_action a.intent_text s.gs with
    | .error e => .error (e, s)
    | .ok txt => .ok { s with narration_buffer := s.narration_buffer ++ [txt] }
  | .ok (some plan) =>
    match execute_plan cap s.gs (Resolution.of_plan plan) s.rng with
    | .error e => .error (e, s)
    | .ok (resolution, g1) =>
      let s1 : CtrlState :=
        { s with
            rng := g1,
            narration_buffer := s.narration_buffer ++ resolution.narration_fragments }
      match applyChanges s1 resolution.pending_state_changes with
      | .error e => .error e
      | .ok s2 => enqueueReactions o a s2 resolution.triggered_reactions

/-- The bracketed error fragment of the per-action handler (line 126). -/
def errFrag (e : String) : String := "[An error occurred processing action: " ++ e ++ "]"

/-- Embedding of `GameController._resolve_action` (lines 92-126): run the pipeline; any
exception is caught, narrated as a bracketed error fragment, and the
controller state (with all mutations made before the exception) is kept. -/
def resolve_action (o : OracleModel) (cap : ReactionCap) (a : Action)
    (s : CtrlState) : CtrlState :=
  match resolve_pipeline o cap a s with
  | .ok s1 => s1
  | .error (e, s1) => { s1 with narration_buffer := s1.narration_buffer ++ [errFrag e] }

/-- The iteration-cap narration line of `_process_queue` (line 86). -/
def chaosMsg : String := "[The chaos becomes too complex to follow...]"

/-- One iteration of the drain-loop body (lines 89-90): dequeue, then resolve.
A `None` dequeue (impossible for well-formed queues while non-empty) raises
inside the per-action try like any other exception and is narrated. -/
def queueStep (o : OracleModel) (cap : ReactionCap) (s : CtrlState) : CtrlState :=
  match s.action_queue.dequeue with
  | (some a, q1) => resolve_action o cap a { s with action_queue := q1 }
  | (Option.none, q1) =>
    { s with
        action_queue := q1,
        narration_buffer := s.narration_buffer ++
          [errFrag "AttributeError: NoneType has no attribute intent_text"] }

/-- The while loop of `GameController._process_queue` (lines 79-90) with the
remaining iteration budget made explicit: stop when the queue is empty; if the
budget is exhausted while the queue is non-empty, append the cap narration
and abort; otherwise run one step and continue. -/
def process_queue_aux (o : OracleModel) (cap : ReactionCap) :
    Nat → CtrlState → CtrlState
  | fuel, s =>
    if s.action_queue.is_empty then s
    else
      match fuel with
      | 0 => { s with narration_buffer := s.narration_buffer ++ [chaosMsg] }
      | n + 1 => process_queue_aux o cap n (queueStep o cap s)

/-- Embedding of `GameController._process_queue` with its `max_iterations = 50` budget. -/
def process_queue (o : OracleModel) (cap : ReactionCap) (s : CtrlState) : CtrlState :=
  process_queue_aux o cap 50 s

theorem process_queue_aux_spec (o : OracleModel) (cap : ReactionCap) :
    ∀ (n : Nat) (s : CtrlState),
      (∃ k ≤ n, process_queue_aux o cap n s = (queueStep o cap)^[k] s ∧
        ((queueStep o cap)^[k] s).action_queue.is_empty = true) ∨
      ((∀ j, j ≤ n → ((queueStep o cap)^[j] s).action_queue.is_empty = false) ∧
        process_queue_aux o cap n s =
          { ((queueStep o cap)^[n] s) with
              narration_buffer :=
                ((queueStep o cap)^[n] s).narration_buffer ++ [chaosMsg] }) := by
  intro n
  induction n with
  | zero =>
    intro s
    cases he : s.action_queue.is_empty with
    | true =>
      left
      refine ⟨0, le_refl 0, ?_, by simpa using he⟩
      rw [process_queue_aux, if_pos he]
      exact (Function.iterate_zero_apply _ _).symm
    | false =>
      right
      refine ⟨?_, ?_⟩
      · intro j hj
        interval_cases j
        simpa using he
      · rw [process_queue_aux, if_neg (by simp [he])]
        simp [Function.iterate_zero_apply]
  | succ n ih =>
    intro s
    cases he : s.action_queue.is_empty with
    | true =>
      left
      refine ⟨0, Nat.zero_le _, ?_, by simpa using he⟩
      rw [process_queue_aux, if_pos he]
      exact (Function.iterate_zero_apply _ _).symm
    | false =>
      have hstep : process_queue_aux o cap (n + 1) s =
          process_queue_aux o cap n (queueStep o cap s) := by
        rw [process_queue_aux, if_neg (by simp [he])]
      rcases ih (queueStep o cap s) with ⟨k, hk, heq, hemp⟩ | ⟨hall, heq⟩
      · left
        refine ⟨k + 1, Nat.succ_le_succ hk, ?_, ?_⟩
        · rw [hstep, heq, Function.iterate_succ_apply]
        · rw [Function.iterate_succ_apply]
          exact hemp
      · right
        refine ⟨?_, ?_⟩
        · intro j hj
          cases j with
          | zero => simpa using he
          | succ j' =>
            rw [Function.iterate_succ_apply]
            exact hall j' (Nat.le_of_succ_le_succ hj)
        · rw [hstep, heq, Function.iterate_succ_apply]

/-- C3: every drain terminates after at most 50 engine steps — `process_queue`
equals some `k ≤ 50`-fold iterate of the loop body (stopping on an empty
queue), or exactly the 50-fold iterate with the cap narration appended once;
and whenever every step keeps the queue non-empty (mutual reactions), the
drain runs exactly 50 steps and appends the "too complex to follow" fragment
exactly once. -/
theorem C3_drain_cap_terminates :
    (∀ (o : OracleModel) (cap : ReactionCap) (s : CtrlState),
      ∃ k ≤ 50,
        (process_queue o cap s = (queueStep o cap)^[k] s ∧
          ((queueStep o cap)^[k] s).action_queue.is_empty = true) ∨
        (k = 50 ∧ process_queue o cap s =
          { ((queueStep o cap)^[50] s) with
              narration_buffer :=
                ((queueStep o cap)^[50] s).narration_buffer ++ [chaosMsg] })) ∧
    (∀ (o : OracleModel) (cap : ReactionCap) (s : CtrlState),
      (∀ j, j ≤ 50 → ((queueStep o cap)^[j] s).action_queue.is_empty = false) →
      process_queue o cap s =
        { ((queueStep o cap)^[50] s) with
            narration_buffer :=
              ((queueStep o cap)^[50] s).narration_buffer ++ [chaosMsg] }) := by
  constructor
  · intro o cap s
    rcases process_queue_aux_spec o cap 50 s with ⟨k, hk, heq, hemp⟩ | ⟨-, heq⟩
    · exact ⟨k, hk, Or.inl ⟨heq, hemp⟩⟩
    · exact ⟨50, le_refl 50, Or.inr ⟨rfl, heq⟩⟩
  · intro o cap s hall
    rcases process_queue_aux_spec o cap 50 s with ⟨k, hk, heq, hemp⟩ | ⟨-, heq⟩
    · rw [hall k hk] at hemp
      exact absurd hemp (by simp)
    · exact heq

/-- An Oracle whose every call fails (definite transport failure). -/
def oOffline : OracleModel :=
  ⟨fun _ _ => .error "offline", fun _ _ => .error "offline", fun _ _ _ => .error "offline"⟩

/-- A controller state whose queue holds 51 pending actions at priority 0. -/
def s51 : CtrlState :=
  ⟨⟨[(0, (List.range 51).map (fun n => ⟨"a" ++ toString n, "p", "t", 0⟩))], [0]⟩,
   [], sampleState, []⟩

/-- Closed instance for C3: with an offline Oracle and 51 queued actions the
queue stays non-empty through all 50 steps, so the drain stops after exactly
50 steps and appends the cap fragment once. -/
theorem C3_drain_cap_terminates_witness :
    process_queue oOffline capNone s51 =
      { ((queueStep oOffline capNone)^[50] s51) with
          narration_buffer :=
            ((queueStep oOffline capNone)^[50] s51).narration_buffer ++ [chaosMsg] } :=
  C3_drain_cap_terminates.2 oOffline capNone s51 (by decide)

/-- C7: the per-action boundary of `_resolve_action` converts any pipeline
exception into a bracketed error narration fragment appended to the buffer
(keeping the state built before the exception) and returns normally; and the
drain loop applies `_resolve_action` to the dequeued action and simply
continues with the remaining budget, so one malformed action never aborts the
turn. -/
theorem C7_per_action_error_boundary :
    (∀ (o : OracleModel) (cap : ReactionCap) (a : Action) (s : CtrlState)
      (e : String) (s1 : CtrlState),
      resolve_pipeline o cap a s = .error (e, s1) →
      resolve_action o cap a s =
        { s1 with narration_buffer := s1.narration_buffer ++ [errFrag e] }) ∧
    (∀ (o : OracleModel) (cap : ReactionCap) (n : Nat) (s : CtrlState) (a : Action)
      (q1 : ActionQueue),
      s.action_queue.dequeue = (some a, q1) →
      s.action_queue.is_empty = false →
      process_queue_aux o cap (n + 1) s =
        process_queue_aux o cap n (resolve_action o cap a { s with action_queue := q1 })) := by
  constructor
  · intro o cap a s e s1 h
    unfold resolve_action
    rw [h]
  · intro o cap n s a q1 hdq hne
    rw [process_queue_aux, if_neg (by simp [hne])]
    unfold queueStep
    rw [hdq]

/-- Closed instance for C7: with the offline Oracle the pipeline fails
immediately, the failure is narrated as a bracketed fragment, and the drain
proceeds to the remaining queued action. -/
theorem C7_per_action_error_boundary_witness :
    (resolve_action oOffline capNone ⟨"a0", "p", "t", 0⟩
        ⟨⟨[(0, [⟨"a0", "p", "t", 0⟩])], [0]⟩, [], sampleState, []⟩ =
      { (⟨⟨[(0, [⟨"a0", "p", "t", 0⟩])], [0]⟩, [], sampleState, []⟩ : CtrlState) with
          narration_buffer := [] ++ [errFrag "offline"] }) ∧
    (process_queue_aux oOffline capNone 4
        ⟨⟨[(0, [⟨"a0", "p", "t", 0⟩, ⟨"a1", "p", "t", 0⟩])], [0]⟩, [], sampleState, []⟩ =
      process_queue_aux oOffline capNone 3
        (resolve_action oOffline capNone ⟨"a0", "p", "t", 0⟩
          ⟨⟨[(0, [⟨"a1", "p", "t", 0⟩])], [0]⟩, [], sampleState, []⟩)) :=
  ⟨C7_per_action_error_boundary.1 oOffline capNone ⟨"a0", "p", "t", 0⟩
      ⟨⟨[(0, [⟨"a0", "p", "t", 0⟩])], [0]⟩, [], sampleState, []⟩ "offline"
      ⟨⟨[(0, [⟨"a0", "p", "t", 0⟩])], [0]⟩, [], sampleState, []⟩ rfl,
   C7_per_action_error_boundary.2 oOffline capNone 3
      ⟨⟨[(0, [⟨"a0", "p", "t", 0⟩, ⟨"a1", "p", "t", 0⟩])], [0]⟩, [], sampleState, []⟩
      ⟨"a0", "p", "t", 0⟩ ⟨[(0, [⟨"a1", "p", "t", 0⟩])], [0]⟩
      (by decide) (by decide)⟩

end AutoDungeon
